import Mathlib

/-!
Verification of the configuration resolution engine of tree-gateway
(`src/config.ts`, class `Configuration`).

We shallowly embed the configuration values handled by the engine as a
JSON/YAML-like inductive `Value` (objects are ordered association lists,
as produced by the YAML/JSON parsers), translate each private method of
the `Configuration` class into a Lean function over `Value`, and model
the stateful lifecycle (`load` / `reload`, the event emitter and the
`this.config` field) by explicit state passing.  External collaborators
(the filesystem, the environment, the persisted store, the packaged
templates, the interactive prompt answers and the Joi validators) are
supplied through an `Env` record.
-/

/-- A parsed configuration value (the result of `YAML.load` /
`fs.readJSONSync`).  Objects are ordered association lists. -/
inductive Value where
  | null : Value
  | bool (b : Bool) : Value
  | num (n : Int) : Value
  | str (s : String) : Value
  | arr (items : List Value) : Value
  | obj (fields : List (String × Value)) : Value
deriving Repr

mutual

/-- Decidable equality of configuration values. -/
def decEqValue : (a b : Value) → Decidable (a = b)
  | Value.null, Value.null => isTrue rfl
  | Value.bool a, Value.bool b =>
    if h : a = b then isTrue (by rw [h]) else isFalse (fun hh => h (Value.bool.inj hh))
  | Value.num a, Value.num b =>
    if h : a = b then isTrue (by rw [h]) else isFalse (fun hh => h (Value.num.inj hh))
  | Value.str a, Value.str b =>
    if h : a = b then isTrue (by rw [h]) else isFalse (fun hh => h (Value.str.inj hh))
  | Value.arr xs, Value.arr ys =>
    match decEqValueList xs ys with
    | isTrue h => isTrue (by rw [h])
    | isFalse h => isFalse (fun hh => h (Value.arr.inj hh))
  | Value.obj xs, Value.obj ys =>
    match decEqValueKVs xs ys with
    | isTrue h => isTrue (by rw [h])
    | isFalse h => isFalse (fun hh => h (Value.obj.inj hh))
  | Value.null, Value.bool _ => isFalse (fun h => Value.noConfusion h)
  | Value.null, Value.num _ => isFalse (fun h => Value.noConfusion h)
  | Value.null, Value.str _ => isFalse (fun h => Value.noConfusion h)
  | Value.null, Value.arr _ => isFalse (fun h => Value.noConfusion h)
  | Value.null, Value.obj _ => isFalse (fun h => Value.noConfusion h)
  | Value.bool _, Value.null => isFalse (fun h => Value.noConfusion h)
  | Value.bool _, Value.num _ => isFalse (fun h => Value.noConfusion h)
  | Value.bool _, Value.str _ => isFalse (fun h => Value.noConfusion h)
  | Value.bool _, Value.arr _ => isFalse (fun h => Value.noConfusion h)
  | Value.bool _, Value.obj _ => isFalse (fun h => Value.noConfusion h)
  | Value.num _, Value.null => isFalse (fun h => Value.noConfusion h)
  | Value.num _, Value.bool _ => isFalse (fun h => Value.noConfusion h)
  | Value.num _, Value.str _ => isFalse (fun h => Value.noConfusion h)
  | Value.num _, Value.arr _ => isFalse (fun h => Value.noConfusion h)
  | Value.num _, Value.obj _ => isFalse (fun h => Value.noConfusion h)
  | Value.str _, Value.null => isFalse (fun h => Value.noConfusion h)
  | Value.str _, Value.bool _ => isFalse (fun h => Value.noConfusion h)
  | Value.str _, Value.num _ => isFalse (fun h => Value.noConfusion h)
  | Value.str _, Value.arr _ => isFalse (fun h => Value.noConfusion h)
  | Value.str _, Value.obj _ => isFalse (fun h => Value.noConfusion h)
  | Value.arr _, Value.null => isFalse (fun h => Value.noConfusion h)
  | Value.arr _, Value.bool _ => isFalse (fun h => Value.noConfusion h)
  | Value.arr _, Value.num _ => isFalse (fun h => Value.noConfusion h)
  | Value.arr _, Value.str _ => isFalse (fun h => Value.noConfusion h)
  | Value.arr _, Value.obj _ => isFalse (fun h => Value.noConfusion h)
  | Value.obj _, Value.null => isFalse (fun h => Value.noConfusion h)
  | Value.obj _, Value.bool _ => isFalse (fun h => Value.noConfusion h)
  | Value.obj _, Value.num _ => isFalse (fun h => Value.noConfusion h)
  | Value.obj _, Value.str _ => isFalse (fun h => Value.noConfusion h)
  | Value.obj _, Value.arr _ => isFalse (fun h => Value.noConfusion h)

/-- Decidable equality of value lists. -/
def decEqValueList : (a b : List Value) → Decidable (a = b)
  | [], [] => isTrue rfl
  | [], _ :: _ => isFalse (fun h => List.noConfusion h)
  | _ :: _, [] => isFalse (fun h => List.noConfusion h)
  | x :: xs, y :: ys =>
    match decEqValue x y with
    | isFalse h => isFalse (fun hh => h (List.head_eq_of_cons_eq hh))
    | isTrue h1 =>
      match decEqValueList xs ys with
      | isTrue h2 => isTrue (by rw [h1, h2])
      | isFalse h => isFalse (fun hh => h (List.tail_eq_of_cons_eq hh))

/-- Decidable equality of object field lists. -/
def decEqValueKVs : (a b : List (String × Value)) → Decidable (a = b)
  | [], [] => isTrue rfl
  | [], _ :: _ => isFalse (fun h => List.noConfusion h)
  | _ :: _, [] => isFalse (fun h => List.noConfusion h)
  | (k, x) :: xs, (k', y) :: ys =>
    if hk : k = k' then
      match decEqValue x y with
      | isFalse h =>
        isFalse (fun hh => h (congrArg Prod.snd (List.head_eq_of_cons_eq hh)))
      | isTrue h1 =>
        match decEqValueKVs xs ys with
        | isTrue h2 => isTrue (by rw [hk, h1, h2])
        | isFalse h => isFalse (fun hh => h (List.tail_eq_of_cons_eq hh))
    else
      isFalse (fun hh => hk (congrArg Prod.fst (List.head_eq_of_cons_eq hh)))

end

instance : DecidableEq Value := decEqValue

instance : DecidableEq (List Value) := decEqValueList

instance : DecidableEq (List (String × Value)) := decEqValueKVs

/-- Lookup of a key in an object's field list (first binding wins, as in
JavaScript property access on parsed JSON/YAML). -/
def lookupKey : List (String × Value) → String → Option Value
  | [], _ => none
  | (k', v) :: rest, k => if k' = k then some v else lookupKey rest k

/-- Replace the value bound to the first occurrence of a key, keeping the
binding order (JavaScript property assignment on an existing key). -/
def updateKey : List (String × Value) → String → Value → List (String × Value)
  | [], _, _ => []
  | (k', v) :: rest, k, x => if k' = k then (k', x) :: rest else (k', v) :: updateKey rest k x

/-- Property read on a value: `v[k]` for an object, `undefined` (here
`none`) on any non-object. -/
def getKey (v : Value) (k : String) : Option Value :=
  match v with
  | Value.obj kvs => lookupKey kvs k
  | _ => none

/-- `_.get(v, path)` over a dotted path, represented as a list of keys. -/
def getAtPath : List String → Value → Option Value
  | [], v => some v
  | k :: ks, Value.obj kvs =>
    match lookupKey kvs k with
    | some w => getAtPath ks w
    | none => none
  | _ :: _, _ => none

/-- `_.has(v, path)`: the whole path exists. -/
def hasPath (p : List String) (v : Value) : Bool :=
  (getAtPath p v).isSome

/-- Property assignment `v.k₁.….kₙ = x` along a path of objects: existing
keys are updated in place, a missing final key is created on its (object)
parent, and the value is left unchanged when an intermediate object or
key is missing (the JavaScript original would throw there; no call site
reaches that case). -/
def setAtPath : List String → Value → Value → Value
  | [], x, _ => x
  | k :: ks, x, Value.obj kvs =>
    match lookupKey kvs k with
    | some w => Value.obj (updateKey kvs k (setAtPath ks x w))
    | none => if ks.isEmpty then Value.obj (kvs ++ [(k, x)]) else Value.obj kvs
  | _ :: _, _, v => v

/-- Top-level property assignment `v[k] = x` (creates the key when
absent). -/
def setTopKey (v : Value) (k : String) (x : Value) : Value :=
  setAtPath [k] x v

/-- JavaScript truthiness of a parsed value (`undefined` is handled at
call sites through `Option`). -/
def truthy : Value → Bool
  | Value.null => false
  | Value.bool b => b
  | Value.num n => n != 0
  | Value.str s => s != ""
  | Value.arr _ => true
  | Value.obj _ => true

/-- Truthiness of a possibly-`undefined` value. -/
def truthyOpt : Option Value → Bool
  | none => false
  | some v => truthy v

example : truthyOpt (getKey (Value.obj [("a", Value.num 3)]) "a") = true := by decide
example : getAtPath ["a", "b"] (Value.obj [("a", Value.obj [("b", Value.str "x")])]) =
    some (Value.str "x") := by decide

/-! ## Path and string helpers (`path.dirname`, `path.join`, `_.trim`,
`removeExtension`)

The core `String` functions do not reduce inside the kernel, so the few
string operations the engine needs are implemented over the underlying
character lists. -/

/-- `t` is a prefix of `s`, character by character. -/
def strStartsWith (s t : String) : Bool :=
  t.data.isPrefixOf s.data

/-- `t` is a suffix of `s`, character by character. -/
def strEndsWith (s t : String) : Bool :=
  t.data.reverse.isPrefixOf s.data.reverse

/-- Drop the first `n` characters. -/
def strDrop (s : String) (n : Nat) : String :=
  String.mk (s.data.drop n)

/-- Drop the last `n` characters. -/
def strDropRight (s : String) (n : Nat) : String :=
  String.mk (s.data.take (s.data.length - n))

/-- ASCII lower-casing of one character. -/
def charLower (c : Char) : Char :=
  if c.toNat ≥ 65 && c.toNat ≤ 90 then Char.ofNat (c.toNat + 32) else c

/-- ASCII lower-casing (`String.prototype.toLowerCase` on the file names
the engine handles). -/
def strToLower (s : String) : String :=
  String.mk (s.data.map charLower)

/-- Whitespace for `_.trim`. -/
def isWsChar (c : Char) : Bool :=
  c = ' ' || c = '\t' || c = '\n' || c = '\r'

/-- Lodash `_.trim`. -/
def strTrim (s : String) : String :=
  String.mk (((s.data.dropWhile isWsChar).reverse.dropWhile isWsChar).reverse)

/-- Split a character list on `/`. -/
def splitOnSlash : List Char → List (List Char)
  | [] => [[]]
  | c :: rest =>
    match splitOnSlash rest with
    | [] => [[]]
    | g :: gs => if c = '/' then [] :: g :: gs else (c :: g) :: gs

/-- Re-join path segments with `/`. -/
def interSlash : List (List Char) → List Char
  | [] => []
  | [g] => g
  | g :: gs => g ++ '/' :: interSlash gs

/-- `path.dirname`, modelled for the slash-separated paths the engine
builds (no trailing-slash or `..` normalisation, which no call site
produces). -/
def dirname (s : String) : String :=
  let parts := splitOnSlash s.data
  if parts.length ≤ 1 then "."
  else
    let init := parts.dropLast
    if init = [[]] then "/" else String.mk (interSlash init)

/-- `path.join a b`, modelled for the joins the engine performs: a
leading `./` on the second component is normalised away and the parts
are glued with a single slash. -/
def pathJoin (a b : String) : String :=
  let b := if strStartsWith b "./" then strDrop b 2 else b
  if a = "" then b
  else if strEndsWith a "/" then a ++ b
  else a ++ "/" ++ b

example : dirname "/cwd/app-config" = "/cwd" := by decide
example : dirname "/a" = "/" := by decide
example : dirname "a" = "." := by decide
example : pathJoin "/cwd" "./app-config" = "/cwd/app-config" := by decide
example : pathJoin "/r" "middleware" = "/r/middleware" := by decide

/-- `Configuration.removeExtension`: strip a trailing `.yaml` / `.yml` /
`.json` (case-insensitively) from a file name. -/
def removeExtension (fileName : String) : String :=
  let lowerFileName := strToLower fileName
  if strEndsWith lowerFileName ".yaml" then strDropRight fileName 5
  else if strEndsWith lowerFileName ".yml" then strDropRight fileName 4
  else if strEndsWith lowerFileName ".json" then strDropRight fileName 5
  else fileName

example : removeExtension "tree-gateway.JSON" = "tree-gateway" := by decide
example : removeExtension "./app-config" = "./app-config" := by decide

/-! ## The environment-variable interpolator

The source applies `checkEnvVariable` (from `src/utils/env.ts`, not part
of the provided sources) to every string leaf through lodash-deep's
`deepMapValues`. -/

/-- Lookup in the process environment, modelled as an association
list. -/
def lookupVar : List (String × String) → String → Option String
  | [], _ => none
  | (k', v) :: rest, k => if k' = k then some v else lookupVar rest k

/-- Modelled from the spec: the per-string resolver of the Variable
Interpolator (`checkEnvVariable` of the missing `src/utils/env.ts`).  A
string leaf that is an environment-variable reference token
`"$\x7bNAME\x7d"` is replaced by the value of the variable `NAME`; a
reference to an unset variable is left as the literal marker, and
strings without the reference marker are untouched. -/
def checkEnvVariable (vars : List (String × String)) (s : String) : String :=
  if strStartsWith s "$\x7b" && strEndsWith s "\x7d" then
    let name := strDropRight (strDrop s 2) 1
    match lookupVar vars name with
    | some v => v
    | none => s
  else s

example : checkEnvVariable [("ROOT", "./sub")] "$\x7bROOT\x7d" = "./sub" := by decide
example : checkEnvVariable [] "$\x7bROOT\x7d" = "$\x7bROOT\x7d" := by decide
example : checkEnvVariable [("ROOT", "./sub")] "plain" = "plain" := by decide

mutual

/-- Lodash-deep's `deepMapValues f`: apply `f` to every string leaf of a
value, descending through objects and arrays (non-string leaves are
untouched; `checkEnvVariable` only acts on strings). -/
def deepMapStrings (f : String → String) : Value → Value
  | Value.obj kvs => Value.obj (deepMapStringsKVs f kvs)
  | Value.arr xs => Value.arr (deepMapStringsList f xs)
  | Value.str s => Value.str (f s)
  | v => v

/-- `deepMapStrings` over an array's elements. -/
def deepMapStringsList (f : String → String) : List Value → List Value
  | [] => []
  | x :: xs => deepMapStrings f x :: deepMapStringsList f xs

/-- `deepMapStrings` over an object's fields. -/
def deepMapStringsKVs (f : String → String) : List (String × Value) → List (String × Value)
  | [] => []
  | (k, v) :: rest => (k, deepMapStrings f v) :: deepMapStringsKVs f rest

end

/-! ## Deep merge with fallback (lodash `_.defaultsDeep`)

`_.defaultsDeep(d, s)` keeps every key `d` defines, fills the keys `d`
omits from `s`, and recurses when both sides bind a key to an object —
or to an array: lodash merges arrays index-wise like objects with index
keys, so the destination's elements win position by position and the
source's extra trailing elements are appended
(`_.defaultsDeep({a:[1]}, {a:[2,3]})` yields `{a:[1,3]}`).
Scalars and mixed shapes are taken from `d` unchanged. -/

/-- The fields of the fallback source that the destination omits. -/
def missingKeys (dk sk : List (String × Value)) : List (String × Value) :=
  sk.filter (fun kv => (lookupKey dk kv.1).isNone)

mutual

/-- Lodash `_.defaultsDeep d s` (destination-wins deep merge, recursing
through both objects and arrays). -/
def defaultsDeep : Value → Value → Value
  | Value.obj dk, Value.obj sk => Value.obj (defaultsKVs dk sk ++ missingKeys dk sk)
  | Value.arr dxs, Value.arr sxs => Value.arr (defaultsArr dxs sxs)
  | d, _ => d

/-- Merge each destination field with the fallback's binding for the
same key. -/
def defaultsKVs : List (String × Value) → List (String × Value) → List (String × Value)
  | [], _ => []
  | (k, v) :: rest, sk =>
    (k, match lookupKey sk k with
        | some w => defaultsDeep v w
        | none => v) :: defaultsKVs rest sk

/-- Index-wise merge of two arrays: destination elements win at each
index (merged recursively with the source element there) and source
elements beyond the destination's length are appended. -/
def defaultsArr : List Value → List Value → List Value
  | [], sxs => sxs
  | dxs, [] => dxs
  | d :: ds, s :: ss => defaultsDeep d s :: defaultsArr ds ss

end

example :
    defaultsDeep (Value.obj [("a", Value.num 1), ("c", Value.obj [("x", Value.num 2)])])
      (Value.obj [("a", Value.num 9), ("b", Value.num 3), ("c", Value.obj [("y", Value.num 4)])]) =
    Value.obj [("a", Value.num 1), ("c", Value.obj [("x", Value.num 2), ("y", Value.num 4)]),
      ("b", Value.num 3)] := by decide

example :
    defaultsDeep (Value.obj [("a", Value.arr [Value.num 1])])
      (Value.obj [("a", Value.arr [Value.num 2, Value.num 3])]) =
    Value.obj [("a", Value.arr [Value.num 1, Value.num 3])] := by decide

/-! ## The Array Normalizer (`Configuration.castArrays` and the
`castArray` helper of the missing `src/utils/config.ts`) -/

/-- Wrap a non-array value into a one-element array (lodash
`_.castArray`). -/
def toArr : Value → Value
  | Value.arr xs => Value.arr xs
  | v => Value.arr [v]

/-- Modelled from the spec: the `castArray(obj, path)` helper of the
missing `src/utils/config.ts`.  If the value at the dotted path exists
and is not already a sequence, it is replaced by the one-element
sequence containing it; if it is already a sequence or the path does not
exist, nothing changes. -/
def castArrayAt : List String → Value → Value
  | [], v => toArr v
  | k :: ks, Value.obj kvs =>
    match lookupKey kvs k with
    | some w => Value.obj (updateKey kvs k (castArrayAt ks w))
    | none => Value.obj kvs
  | _ :: _, v => v

/-- Fold step used by `castArraysFn`. -/
def castStep (v : Value) (p : List String) : Value :=
  castArrayAt p v

/-- The fixed dotted paths of `Configuration.castArrays`, in source
order. -/
def fixedCastPaths : List (List String) :=
  [["database", "redis", "cluster"],
   ["database", "redis", "sentinel", "nodes"],
   ["gateway", "filter"],
   ["gateway", "admin", "filter"],
   ["gateway", "serviceDiscovery", "provider"],
   ["gateway", "logger", "console", "stderrLevels"],
   ["gateway", "accessLogger", "console", "stderrLevels"]]

/-- The keys of the object found at a path (`_.keys`), empty when the
path is missing or holds a non-object. -/
def keysAt (p : List String) (v : Value) : List String :=
  match getAtPath p v with
  | some (Value.obj kvs) => kvs.map (fun kv => kv.1)
  | _ => []

/-- The dotted path of the per-cache-entry `server.preserveHeaders`
normalization for the cache entry named `k`. -/
def cachePath (k : String) : List String :=
  ["gateway", "config", "cache", k, "server", "preserveHeaders"]

/-- The dotted path of a per-cors-entry normalization for the cors entry
named `k` and the field `sub`. -/
def corsPath (k sub : String) : List String :=
  ["gateway", "config", "cors", k, sub]

/-- The root of the dynamically-keyed cache map. -/
def cacheRoot : List String := ["gateway", "config", "cache"]

/-- The root of the dynamically-keyed cors map. -/
def corsRoot : List String := ["gateway", "config", "cors"]

/-- The per-key cache normalization paths of a configuration value. -/
def cachePathsOf (s : Value) : List (List String) :=
  if hasPath cacheRoot s then (keysAt cacheRoot s).map cachePath else []

/-- The per-key cors normalization paths of a configuration value, in
the order the source casts them. -/
def corsPathsOf (s : Value) : List (List String) :=
  if hasPath corsRoot s then
    ((keysAt corsRoot s).map
      (fun k => [corsPath k "allowedHeaders", corsPath k "exposedHeaders", corsPath k "methods"])).flatten
  else []

/-- `Configuration.castArrays`: the fixed paths first, then the per-key
cache paths (whose key list is read after the fixed casts), then the
per-key cors paths. -/
def castArraysFn (s : Value) : Value :=
  let s1 := fixedCastPaths.foldl castStep s
  let s2 := (cachePathsOf s1).foldl castStep s1
  (corsPathsOf s2).foldl castStep s2

/-- All target paths of the Array Normalizer for a given configuration
value. -/
def targetPaths (s : Value) : List (List String) :=
  fixedCastPaths ++ (cachePathsOf s ++ corsPathsOf s)

example :
    castArraysFn (Value.obj [("gateway", Value.obj [("admin",
      Value.obj [("filter", Value.str "a")])])]) =
    Value.obj [("gateway", Value.obj [("admin",
      Value.obj [("filter", Value.arr [Value.str "a"])])])] := by decide

example :
    castArraysFn (Value.obj [("database", Value.obj [("redis",
      Value.obj [("cluster", Value.obj [("host", Value.str "h")])])])]) =
    Value.obj [("database", Value.obj [("redis",
      Value.obj [("cluster", Value.arr [Value.obj [("host", Value.str "h")]])])])] := by decide

example :
    castArraysFn (Value.obj [("gateway", Value.obj [("config", Value.obj [("cors",
      Value.obj [("mycors", Value.obj [("methods", Value.str "GET")])])])])]) =
    Value.obj [("gateway", Value.obj [("config", Value.obj [("cors",
      Value.obj [("mycors", Value.obj [("methods", Value.arr [Value.str "GET"])])])])])] := by
  decide

/-! ## The external world of the engine

The filesystem, process environment, persisted store, packaged
templates, prompt answers and Joi validators, all consumed by the
`Configuration` class but implemented elsewhere. -/

/-- Redis prompt answers collected by `askRedisOptions` (the `filter` of
the topology question has already lower-cased the choice). -/
structure Answers where
  connectionType : String
  host : String
  port : String
  db : String
  password : String

/-- The world `Configuration` runs against.  `fs` maps a file path to
its parsed content; `stored` is the gateway value held by the store's
`GatewayService`; `serverValid` / `gatewayValid` stand for the opaque
Joi validators `validateServerConfig` / `validateGatewayConfig` (they
reject or accept a value unchanged); `uuidVal` is the fresh random value
the next `uuid()` call returns.  `Configuration.resetBeforeStart` is
modelled as unset. -/
structure Env where
  cwd : String
  gatewayConfigFile : Option String
  nodeEnv : Option String
  vars : List (String × String)
  fs : List (String × Value)
  stored : Option Value
  serverTemplate : Value
  gatewayTemplate : Value
  uuidVal : String
  answers : Answers
  serverValid : Value → Bool
  gatewayValid : Value → Bool

/-- `Configuration.loadConfigObject`: try `<name>.yml`, `<name>.yaml`,
`<name>.json` in that order; `null` (here `none`) if none exists.  The
filesystem is an association list from file path to parsed content, read
with the same first-binding lookup as object fields. -/
def loadConfigObject (fs : List (String × Value)) (fileName : String) : Option Value :=
  match lookupKey fs (fileName ++ ".yml") with
  | some v => some v
  | none =>
    match lookupKey fs (fileName ++ ".yaml") with
    | some v => some v
    | none => lookupKey fs (fileName ++ ".json")

/-- `parseInt(x, 10)` on the digit strings the prompt validation
admits. -/
def parsePort (s : String) : Int :=
  Int.ofNat (s.toNat!)

/-- `createRedisConfiguration`: build the `database.redis` substructure
from the prompt answers and assign it into the template. -/
def createRedisConfiguration (config : Value) (a : Answers) : Value :=
  let endpoint := Value.obj [("host", Value.str a.host), ("port", Value.num (parsePort a.port))]
  let redis :=
    if a.connectionType = "standalone" then Value.obj [("standalone", endpoint)]
    else Value.obj [("cluster", Value.arr [endpoint])]
  let redis :=
    if a.db ≠ "" ∨ a.password ≠ "" then
      let opts := (if a.db ≠ "" then [("db", Value.num (parsePort a.db))] else []) ++
        (if a.password ≠ "" then [("password", Value.str a.password)] else [])
      setTopKey redis "options" (Value.obj opts)
    else redis
  setAtPath ["database", "redis"] redis config

/-- `Configuration.loadDefaultServerConfig` (the Bootstrap Provider):
load the packaged server template, fill in the prompted store topology,
and persist the result at `<cwd>/tree-gateway.yaml`.  Returns the
configuration together with the file write it performs. -/
def loadDefaultServerConfig (e : Env) : Value × List (String × Value) :=
  let filePath := pathJoin e.cwd "tree-gateway.yaml"
  let config := createRedisConfiguration e.serverTemplate e.answers
  (config, [(filePath, config)])

/-- Result of `Configuration.loadServerConfig`: the resolved raw value,
whether the Bootstrap Provider ran, and the file writes performed. -/
structure LscResult where
  cfg : Value
  bootstrapped : Bool
  fsWrites : List (String × Value)
deriving Repr, DecidableEq

/-- `Configuration.loadServerConfig`: Format Loader on the base name,
then the Environment Overlay (`<name>-<NODE_ENV>` merged over the base
with overlay-wins `_.defaultsDeep`), then the Bootstrap Provider when
nothing (truthy) was found. -/
def loadServerConfig (e : Env) (configFileName : String) : LscResult :=
  let config := loadConfigObject e.fs configFileName
  let config :=
    match e.nodeEnv with
    | some envName =>
      if envName = "" then config
      else
        match loadConfigObject e.fs (configFileName ++ "-" ++ envName) with
        | some envConfig =>
          if truthy envConfig then some (defaultsDeep envConfig (config.getD Value.null))
          else config
        | none => config
    | none => config
  if truthyOpt config then ⟨config.getD Value.null, false, []⟩
  else
    let d := loadDefaultServerConfig e
    ⟨d.1, true, d.2⟩

/-- The string held by a configuration's `rootPath` field (always a
string at the points the source reads it). -/
def rootPathStr (cfg : Value) : String :=
  match getKey cfg "rootPath" with
  | some (Value.str r) => r
  | _ => ""

/-- The first two Path Defaulter steps of `loadGatewayConfig`: default
`rootPath` to the config file's directory, then resolve a relative
(dot-prefixed) `rootPath` against that directory. -/
def rootPathSteps (configFileName : String) (cfg0 : Value) : Value :=
  let cfg := if (getKey cfg0 "rootPath").isSome then cfg0
    else setTopKey cfg0 "rootPath" (Value.str (dirname configFileName))
  match getKey cfg "rootPath" with
  | some (Value.str r) =>
    if strStartsWith r "." then
      setTopKey cfg "rootPath" (Value.str (pathJoin (dirname configFileName) r))
    else cfg
  | _ => cfg

/-- The last two Path Defaulter steps of `loadGatewayConfig`: default
`middlewarePath` to `rootPath/middleware`, then resolve a relative
(dot-prefixed) `middlewarePath` against `rootPath` (not against the
config file's directory). -/
def middlewarePathSteps (cfg0 : Value) : Value :=
  let cfg := if (getKey cfg0 "middlewarePath").isSome then cfg0
    else setTopKey cfg0 "middlewarePath" (Value.str (pathJoin (rootPathStr cfg0) "middleware"))
  match getKey cfg "middlewarePath" with
  | some (Value.str m) =>
    if strStartsWith m "." then
      setTopKey cfg "middlewarePath" (Value.str (pathJoin (rootPathStr cfg) m))
    else cfg
  | _ => cfg

/-- The Path Defaulter steps of `loadGatewayConfig` for `rootPath` and
`middlewarePath`, in source order. -/
def applyPathDefaults (configFileName : String) (cfg0 : Value) : Value :=
  middlewarePathSteps (rootPathSteps configFileName cfg0)

/-- The TLS path resolution at the end of `loadGatewayConfig`: when a
`gateway.protocol.https` section is present, relative (dot-prefixed)
`privateKey` and `certificate` paths are resolved against `rootPath`. -/
def applyTls (cfg : Value) : Value :=
  if truthyOpt (getKey cfg "gateway") &&
      truthyOpt (getAtPath ["gateway", "protocol"] cfg) then
    if truthyOpt (getAtPath ["gateway", "protocol", "https"] cfg) then
      let cfg :=
        match getAtPath ["gateway", "protocol", "https", "privateKey"] cfg with
        | some (Value.str pk) =>
          if strStartsWith pk "." then
            setAtPath ["gateway", "protocol", "https", "privateKey"]
              (Value.str (pathJoin (rootPathStr cfg) pk)) cfg
          else cfg
        | _ => cfg
      match getAtPath ["gateway", "protocol", "https", "certificate"] cfg with
      | some (Value.str c) =>
        if strStartsWith c "." then
          setAtPath ["gateway", "protocol", "https", "certificate"]
            (Value.str (pathJoin (rootPathStr cfg) c)) cfg
        else cfg
      | _ => cfg
    else cfg
  else cfg

/-- `Configuration.loadDefaultGatewayConfig`: the packaged gateway
template with a fresh random `admin.userService.jwtSecret`. -/
def loadDefaultGatewayConfig (template : Value) (uuidVal : String) : Value :=
  setAtPath ["admin", "userService", "jwtSecret"] (Value.str uuidVal) template

/-- The failures the pipeline can surface. -/
inductive Err where
  | validation : Err
  | missingProtocol : Err
  | notLoaded : Err
  | nullDeref : Err
deriving Repr, DecidableEq

instance {ε α : Type} [DecidableEq ε] [DecidableEq α] : DecidableEq (Except ε α) := fun a b =>
  match a, b with
  | Except.ok x, Except.ok y =>
    if h : x = y then isTrue (by rw [h]) else isFalse (fun hh => h (Except.ok.inj hh))
  | Except.error x, Except.error y =>
    if h : x = y then isTrue (by rw [h]) else isFalse (fun hh => h (Except.error.inj hh))
  | Except.ok _, Except.error _ => isFalse (fun h => Except.noConfusion h)
  | Except.error _, Except.ok _ => isFalse (fun h => Except.noConfusion h)

/-- The message of the error `ensureLoaded` throws. -/
def ensureLoadedMessage : String :=
  "Configuration not loaded. Only access configurations after the Configuration \x27load\x27 event is fired."

/-- The message of the missing-protocol error of `getConfigFromDB`. -/
def missingProtocolMessage : String :=
  "GatewayConfig protocol is required."

/-- The message attached to each failure. -/
def errMessage : Err → Option String
  | Err.missingProtocol => some missingProtocolMessage
  | Err.notLoaded => some ensureLoadedMessage
  | _ => none

/-- Result of `Configuration.getConfigFromDB` (the Store Overlay): the
new `this.config`, the outcome, the store writes, the number of version
markers registered, and the values `this.config` held at each `await`
inside the stage. -/
structure DbResult where
  config : Value
  outcome : Except Err Unit
  saves : List Value
  versionRegs : Nat
  trace : List (Option Value)
deriving Repr, DecidableEq

/-- `Configuration.getConfigFromDB`: fetch the stored gateway value; if
present, merge it over the local gateway value with stored-wins
`_.defaultsDeep`, validate, and require a truthy `protocol`; if absent
and no truthy local gateway value exists, synthesize the default gateway
(fresh secret), persist it and register a version marker; otherwise
accept the local value unchanged. -/
def getConfigFromDB (e : Env) (cfg : Value) : DbResult :=
  if truthyOpt e.stored then
    let gatewayConfig := e.stored.getD Value.null
    let merged := defaultsDeep gatewayConfig ((getKey cfg "gateway").getD Value.null)
    let cfg := setTopKey cfg "gateway" merged
    if e.gatewayValid merged then
      if truthyOpt (getKey merged "protocol") then
        ⟨cfg, Except.ok (), [], 0, [some cfg]⟩
      else
        ⟨cfg, Except.error Err.missingProtocol, [], 0, [some cfg]⟩
    else
      ⟨cfg, Except.error Err.validation, [], 0, [some cfg]⟩
  else if truthyOpt (getKey cfg "gateway") then
    ⟨cfg, Except.ok (), [], 0, []⟩
  else
    let gw := loadDefaultGatewayConfig e.gatewayTemplate e.uuidVal
    let cfg := setTopKey cfg "gateway" gw
    ⟨cfg, Except.ok (), [gw], 1, [some cfg, some cfg]⟩

/-- Result of one run of `Configuration.loadGatewayConfig`: the final
`this.config` field, the outcome, the bootstrap file writes, the store
writes and version registrations, whether the Bootstrap Provider ran,
and the values `this.config` held at each `await` point of the run. -/
structure RunResult where
  config : Option Value
  outcome : Except Err Unit
  fsWrites : List (String × Value)
  saves : List Value
  versionRegs : Nat
  bootstrapped : Bool
  trace : List (Option Value)
deriving Repr, DecidableEq

/-- The configuration file name after trimming, extension removal and
resolution of a dot-prefixed path against the working directory. -/
def resolveConfigFileName (e : Env) (serverConfigFile : String) : String :=
  let configFileName := removeExtension (strTrim serverConfigFile)
  if strStartsWith configFileName "." then pathJoin e.cwd configFileName else configFileName

/-- `Configuration.loadGatewayConfig`, started with `this.config = cfg0`:
resolve the file name, run `loadServerConfig` (Format Loader +
Environment Overlay + Bootstrap Provider), validate, apply the
`rootPath`/`middlewarePath` Path Defaulter steps, interpolate
environment variables on every string leaf, normalize arrays, run the
Store Overlay, and finally resolve the TLS paths. -/
def loadGatewayConfig (e : Env) (cfg0 : Option Value) (serverConfigFile : String) : RunResult :=
  let configFileName := resolveConfigFileName e serverConfigFile
  let lsc := loadServerConfig e configFileName
  let trace := [cfg0, cfg0]
  if e.serverValid lsc.cfg then
    let sc := applyPathDefaults configFileName lsc.cfg
    let sc := deepMapStrings (checkEnvVariable e.vars) sc
    let sc := castArraysFn sc
    let trace := trace ++ [some sc]
    let db := getConfigFromDB e sc
    let trace := trace ++ db.trace
    match db.outcome with
    | Except.error err =>
      ⟨some db.config, Except.error err, lsc.fsWrites, db.saves, db.versionRegs,
        lsc.bootstrapped, trace⟩
    | Except.ok _ =>
      let final := applyTls db.config
      ⟨some final, Except.ok (), lsc.fsWrites, db.saves, db.versionRegs,
        lsc.bootstrapped, trace⟩
  else
    ⟨cfg0, Except.error Err.validation, lsc.fsWrites, [], 0, lsc.bootstrapped, trace⟩

/-! ## The Lifecycle Controller (`load`, `reload`, the getters and the
events) -/

/-- The mutable state of the `Configuration` singleton: the private
`config` field (`none` models JavaScript `null`/unset) and the
`isLoaded` flag. -/
structure ConfigState where
  config : Option Value
  isLoaded : Bool
deriving Repr, DecidableEq

/-- The events `Configuration` emits. -/
inductive Ev where
  | load : Ev
  | error (e : Err) : Ev
  | gatewayUpdate (gw : Value) : Ev
deriving Repr, DecidableEq

/-- The configuration file path `load`/`reload` resolve:
`Configuration.gatewayConfigFile` when truthy, else
`<cwd>/tree-gateway.json`. -/
def configPath (e : Env) : String :=
  match e.gatewayConfigFile with
  | some s => if s = "" then pathJoin e.cwd "tree-gateway.json" else s
  | none => pathJoin e.cwd "tree-gateway.json"

/-- The `gateway` getter: `ensureLoaded()` (throwing when the `load`
event has not fired), then `this.config.gateway`. -/
def gatewayGetter (s : ConfigState) : Except Err Value :=
  if s.isLoaded then
    match s.config with
    | none => Except.error Err.nullDeref
    | some c => Except.ok ((getKey c "gateway").getD Value.null)
  else Except.error Err.notLoaded

/-- The `rootPath` getter: reads `this.config.rootPath` with no loaded
check. -/
def rootPathGetter (s : ConfigState) : Except Err Value :=
  match s.config with
  | none => Except.error Err.nullDeref
  | some c => Except.ok ((getKey c "rootPath").getD Value.null)

/-- The `middlewarePath` getter: reads `this.config.middlewarePath` with
no loaded check. -/
def middlewarePathGetter (s : ConfigState) : Except Err Value :=
  match s.config with
  | none => Except.error Err.nullDeref
  | some c => Except.ok ((getKey c "middlewarePath").getD Value.null)

/-- The `database` getter: reads `this.config.database` with no loaded
check. -/
def databaseGetter (s : ConfigState) : Except Err Value :=
  match s.config with
  | none => Except.error Err.nullDeref
  | some c => Except.ok ((getKey c "database").getD Value.null)

/-- Result of a `load()` or `reload()` call: the state afterwards, the
events emitted, the failure surfaced synchronously to the caller (if
any), and the pipeline run performed (if any). -/
structure ActionResult where
  state : ConfigState
  events : List Ev
  thrown : Option Err
  run : RunResult
deriving Repr, DecidableEq

/-- The run of a `load()`/`reload()` call that never reached the
pipeline. -/
def noRun : RunResult :=
  ⟨none, Except.ok (), [], [], 0, false, []⟩

/-- `Configuration.load()`: a no-op once loaded; otherwise run the
pipeline, set `isLoaded` and emit `load` on success, clear `isLoaded`
and emit `error` on failure — never raising to the caller. -/
def loadCall (e : Env) (s : ConfigState) : ActionResult :=
  if s.isLoaded then ⟨s, [], none, noRun⟩
  else
    let r := loadGatewayConfig e s.config (configPath e)
    match r.outcome with
    | Except.ok _ => ⟨⟨r.config, true⟩, [Ev.load], none, r⟩
    | Except.error err => ⟨⟨r.config, false⟩, [Ev.error err], none, r⟩

/-- `Configuration.reload()`: set `this.config = null`, re-run the
pipeline unconditionally, emit `gateway-update` with the new `gateway`
getter value on success, and propagate any failure synchronously. -/
def reloadCall (e : Env) (s : ConfigState) : ActionResult :=
  let r := loadGatewayConfig e none (configPath e)
  match r.outcome with
  | Except.ok _ =>
    match gatewayGetter ⟨r.config, s.isLoaded⟩ with
    | Except.ok gw => ⟨⟨r.config, s.isLoaded⟩, [Ev.gatewayUpdate gw], none, r⟩
    | Except.error err => ⟨⟨r.config, s.isLoaded⟩, [], some err, r⟩
  | Except.error err => ⟨⟨r.config, s.isLoaded⟩, [], some err, r⟩

/-! ## The stage order the specification claims

The spec describes the pipeline as Format Loader → Environment Overlay →
Variable Interpolator → Path Defaulter (including the TLS path
resolution) → Array Normalizer → Store Overlay.  `specOrderedLoadGatewayConfig`
composes the very same stage functions in exactly that order. -/

/-- The resolution pipeline re-composed in the stage order the
specification claims: interpolation before the Path Defaulter, and the
TLS path resolution inside the Path Defaulter stage, before the Array
Normalizer and the Store Overlay. -/
def specOrderedLoadGatewayConfig (e : Env) (cfg0 : Option Value) (serverConfigFile : String) :
    RunResult :=
  let configFileName := resolveConfigFileName e serverConfigFile
  let lsc := loadServerConfig e configFileName
  let trace := [cfg0, cfg0]
  if e.serverValid lsc.cfg then
    let sc := deepMapStrings (checkEnvVariable e.vars) lsc.cfg
    let sc := applyPathDefaults configFileName sc
    let sc := applyTls sc
    let sc := castArraysFn sc
    let trace := trace ++ [some sc]
    let db := getConfigFromDB e sc
    let trace := trace ++ db.trace
    match db.outcome with
    | Except.error err =>
      ⟨some db.config, Except.error err, lsc.fsWrites, db.saves, db.versionRegs,
        lsc.bootstrapped, trace⟩
    | Except.ok _ =>
      ⟨some db.config, Except.ok (), lsc.fsWrites, db.saves, db.versionRegs,
        lsc.bootstrapped, trace⟩
  else
    ⟨cfg0, Except.error Err.validation, lsc.fsWrites, [], 0, lsc.bootstrapped, trace⟩

/-! ## Basic lemmas about object field access and update -/

theorem lookupKey_updateKey_same (kvs : List (String × Value)) (k : String) (x : Value) :
    lookupKey (updateKey kvs k x) k = (lookupKey kvs k).map (fun _ => x) := by
  induction kvs with
  | nil => simp [lookupKey, updateKey]
  | cons kv rest ih =>
    obtain ⟨k', v⟩ := kv
    by_cases h : k' = k
    · simp [lookupKey, updateKey, h]
    · simp [lookupKey, updateKey, h, ih]

theorem lookupKey_updateKey_ne (kvs : List (String × Value)) (k k' : String) (x : Value)
    (h : k ≠ k') : lookupKey (updateKey kvs k x) k' = lookupKey kvs k' := by
  induction kvs with
  | nil => simp [lookupKey, updateKey]
  | cons kv rest ih =>
    obtain ⟨k₀, v⟩ := kv
    by_cases h0 : k₀ = k
    · subst h0
      simp [lookupKey, updateKey, h]
    · simp only [updateKey, if_neg h0, lookupKey]
      by_cases h1 : k₀ = k'
      · simp [h1]
      · simp [h1, ih]

theorem updateKey_self (kvs : List (String × Value)) (k : String) (w : Value)
    (h : lookupKey kvs k = some w) : updateKey kvs k w = kvs := by
  induction kvs with
  | nil => simp [lookupKey] at h
  | cons kv rest ih =>
    obtain ⟨k₀, v⟩ := kv
    by_cases h0 : k₀ = k
    · simp only [lookupKey, if_pos h0] at h
      cases h
      simp [updateKey, h0]
    · simp only [lookupKey, if_neg h0] at h
      simp [updateKey, h0, ih h]

theorem updateKey_keys (kvs : List (String × Value)) (k : String) (x : Value) :
    (updateKey kvs k x).map Prod.fst = kvs.map Prod.fst := by
  induction kvs with
  | nil => simp [updateKey]
  | cons kv rest ih =>
    obtain ⟨k₀, v⟩ := kv
    by_cases h0 : k₀ = k
    · simp [updateKey, h0]
    · simp [updateKey, h0, ih]

theorem lookupKey_append (a b : List (String × Value)) (k : String) :
    lookupKey (a ++ b) k =
      match lookupKey a k with
      | some v => some v
      | none => lookupKey b k := by
  induction a with
  | nil => simp [lookupKey]
  | cons kv rest ih =>
    obtain ⟨k₀, v⟩ := kv
    by_cases h0 : k₀ = k
    · simp [lookupKey, h0]
    · simp [lookupKey, h0, ih]

theorem getKey_setTopKey_self (kvs : List (String × Value)) (k : String) (x : Value) :
    getKey (setTopKey (Value.obj kvs) k x) k = some x := by
  simp only [setTopKey, setAtPath, getKey]
  cases h : lookupKey kvs k with
  | some w =>
    simp only [h, getKey]
    rw [lookupKey_updateKey_same, h]
    rfl
  | none =>
    simp [h, getKey, lookupKey_append, lookupKey]

theorem getKey_setTopKey_ne (v : Value) (k k' : String) (x : Value) (h : k ≠ k') :
    getKey (setTopKey v k x) k' = getKey v k' := by
  cases v with
  | obj kvs =>
    simp only [setTopKey, setAtPath]
    cases h0 : lookupKey kvs k with
    | some w =>
      simp only [getKey]
      rw [lookupKey_updateKey_ne _ _ _ _ h]
    | none =>
      simp only [List.isEmpty_nil, if_pos, getKey]
      rw [lookupKey_append]
      cases h1 : lookupKey kvs k' with
      | some w => rfl
      | none => simp [lookupKey, h]
  | null => rfl
  | bool b => rfl
  | num n => rfl
  | str s => rfl
  | arr xs => rfl

/-- Two dotted paths diverge when they agree on a (possibly empty)
common prefix and then bind different keys — neither is a prefix of the
other, so a write along one cannot touch a value read along the
other. -/
def divergesB : List String → List String → Bool
  | [], _ => false
  | _, [] => false
  | a :: p, b :: q => a != b || divergesB p q

/-! ## Concrete fixtures used by witnesses and counterexamples -/

/-- Prompt answers of a standalone-topology bootstrap run. -/
def ansStd : Answers :=
  ⟨"standalone", "h", "6379", "", ""⟩

/-- A minimal packaged server template. -/
def tmplServer : Value :=
  Value.obj [("database", Value.obj [])]

/-- A minimal packaged gateway template. -/
def tmplGateway : Value :=
  Value.obj [("admin", Value.obj [("userService", Value.obj [])]),
    ("protocol", Value.obj [("http", Value.obj [("port", Value.num 8080)])])]

/-- A base world: base config file `/b/app.yml` present, no environment
overlay, empty store, permissive validators. -/
def envBase : Env :=
  { cwd := "/c"
    gatewayConfigFile := some "/b/app"
    nodeEnv := none
    vars := []
    fs := [("/b/app.yml", Value.obj [("rootPath", Value.str "/b/r")])]
    stored := none
    serverTemplate := tmplServer
    gatewayTemplate := tmplGateway
    uuidVal := "u1"
    answers := ansStd
    serverValid := fun _ => true
    gatewayValid := fun _ => true }

/-- A world whose base file sets `rootPath` to an environment-variable
reference that resolves to a dot-prefixed path — the stage order of the
pipeline is observable on it. -/
def envVarRoot : Env :=
  { envBase with
    vars := [("ROOT", "./s")]
    fs := [("/b/app.yml", Value.obj [("rootPath", Value.str "$\x7bROOT\x7d")])] }

/-- A world whose server validation always fails. -/
def envInvalid : Env :=
  { envBase with serverValid := fun _ => false }

/-- A world with the configured base path `./app-config` and no
configuration file at all. -/
def envBootstrap : Env :=
  { envBase with gatewayConfigFile := some "./app-config", fs := [] }

/-- The world after the bootstrap run of `envBootstrap` wrote its
generated file. -/
def envBootstrapSecond : Env :=
  { envBootstrap with fs := (loadCall envBootstrap ⟨none, false⟩).run.fsWrites }

/-- `envBootstrap` with the default configured base path. -/
def envBootstrapDefault : Env :=
  { envBootstrap with gatewayConfigFile := none }

/-- The world after the bootstrap run of `envBootstrapDefault` wrote its
generated file. -/
def envBootstrapDefaultSecond : Env :=
  { envBootstrapDefault with fs := (loadCall envBootstrapDefault ⟨none, false⟩).run.fsWrites }

/-- A world with a deployment-environment name `test`, a base file and
an overlay file. -/
def envNodeTest : Env :=
  { envBase with
    nodeEnv := some "test"
    fs := [("/b/app.yml", Value.obj [("a", Value.num 1), ("b", Value.num 2)]),
      ("/b/app-test.yml", Value.obj [("b", Value.num 3)])] }

/-- A stored gateway value binding `filter` to a one-element array. -/
def storedArrGateway : Value :=
  Value.obj [("protocol", Value.obj [("p", Value.num 1)]),
    ("filter", Value.arr [Value.str "a"])]

/-- A local gateway value binding `filter` to a two-element array. -/
def localArrGateway : Value :=
  Value.obj [("filter", Value.arr [Value.str "a", Value.str "b"])]

/-- The base world with `storedArrGateway` persisted in the store. -/
def envStoredArr : Env :=
  { envBase with stored := some storedArrGateway }

/-- A world whose base file and environment overlay bind `filter` to
arrays of different lengths. -/
def envNodeArr : Env :=
  { envBase with
    nodeEnv := some "test"
    fs := [("/b/app.yml", Value.obj [("filter", Value.arr [Value.str "a", Value.str "b"])]),
      ("/b/app-test.yml", Value.obj [("filter", Value.arr [Value.str "x"])])] }

/-- A state that has completed a load: a configuration with a resolved
gateway value is in place. -/
def stLoaded : ConfigState :=
  ⟨some (Value.obj [("rootPath", Value.str "/b/r"),
    ("gateway", Value.obj [("protocol", Value.obj [("http", Value.obj [("port", Value.num 8080)])])])]),
    true⟩

/-! # Theorems

Helper lemmas first, then one theorem per claim (with its witness or
counterexample). -/

theorem loadGatewayConfig_trace_head (e : Env) (cfg0 : Option Value) (f : String) :
    (loadGatewayConfig e cfg0 f).trace.head? = some cfg0 := by
  simp only [loadGatewayConfig]
  split
  · split <;> rfl
  · rfl

theorem reloadCall_run (e : Env) (s : ConfigState) :
    (reloadCall e s).run = loadGatewayConfig e none (configPath e) := by
  simp only [reloadCall]
  split
  · split <;> rfl
  · rfl

/-- C2 counterexample: a reload that succeeds, starting from a state
holding a fully resolved gateway value, passes through an observable
suspension point at which the configuration — and hence the gateway
value — is absent (the source nulls `this.config` before re-running the
pipeline), contradicting the claim that the previous gateway value
remains in place at every point of a successful reload. -/
theorem C2_reload_counterexample :
    (reloadCall envVarRoot stLoaded).thrown = none ∧
    truthyOpt (stLoaded.config.bind (fun c => getKey c "gateway")) = true ∧
    (reloadCall envVarRoot stLoaded).run.trace.head? = some none := by
  decide

/-- C2 amended: `reload()` does not keep the previous gateway value in
place while the new one is computed — it clears `this.config` to `null`
first, so at the first observable suspension point of every `reload()`
(successful or not) the configuration, and with it the gateway value, is
absent. -/
theorem C2_reload_clears_config (e : Env) (s : ConfigState) :
    (reloadCall e s).run.trace.head? = some none := by
  rw [reloadCall_run]
  exact loadGatewayConfig_trace_head e none (configPath e)

/-- C10: only the `gateway` getter enforces the loaded precondition —
it fails with the wait-for-the-load-event error when no load has
succeeded — while the `rootPath`, `middlewarePath` and `database`
getters never consult `isLoaded` and dereference the configuration
object unconditionally, failing on the absent (null) configuration both
before any load completes and after `reload()` has cleared it. -/
theorem C10_getter_guards (s : ConfigState) :
    (s.isLoaded = false →
      gatewayGetter s = Except.error Err.notLoaded ∧
      errMessage Err.notLoaded = some ensureLoadedMessage) ∧
    (s.config = none →
      rootPathGetter s = Except.error Err.nullDeref ∧
      middlewarePathGetter s = Except.error Err.nullDeref ∧
      databaseGetter s = Except.error Err.nullDeref) ∧
    (∀ b : Bool,
      rootPathGetter ⟨s.config, b⟩ = rootPathGetter s ∧
      middlewarePathGetter ⟨s.config, b⟩ = middlewarePathGetter s ∧
      databaseGetter ⟨s.config, b⟩ = databaseGetter s) := by
  obtain ⟨c, b⟩ := s
  refine ⟨?_, ?_, ?_⟩
  · intro h
    simp only at h
    subst h
    exact ⟨rfl, rfl⟩
  · intro h
    simp only at h
    subst h
    exact ⟨rfl, rfl, rfl⟩
  · intro b'
    exact ⟨rfl, rfl, rfl⟩

/-- Witness for C10 at the unloaded initial state. -/
theorem C10_getter_guards_witness :
    (gatewayGetter ⟨none, false⟩ = Except.error Err.notLoaded ∧
      errMessage Err.notLoaded = some ensureLoadedMessage) ∧
    (rootPathGetter ⟨none, false⟩ = Except.error Err.nullDeref ∧
      middlewarePathGetter ⟨none, false⟩ = Except.error Err.nullDeref ∧
      databaseGetter ⟨none, false⟩ = Except.error Err.nullDeref) :=
  ⟨(C10_getter_guards ⟨none, false⟩).1 rfl, (C10_getter_guards ⟨none, false⟩).2.1 rfl⟩

/-- C9: a pipeline failure during `load()` is emitted as an `error`
event and nothing is raised to the caller, while the same kind of
failure during `reload()` is raised synchronously to the caller and no
event is emitted. -/
theorem C9_error_propagation (e : Env) (s : ConfigState) (err : Err) :
    (s.isLoaded = false →
      (loadGatewayConfig e s.config (configPath e)).outcome = Except.error err →
      (loadCall e s).thrown = none ∧ (loadCall e s).events = [Ev.error err]) ∧
    ((loadGatewayConfig e none (configPath e)).outcome = Except.error err →
      (reloadCall e s).thrown = some err ∧ (reloadCall e s).events = []) := by
  constructor
  · intro h1 h2
    obtain ⟨c, b⟩ := s
    simp only at h1
    subst h1
    simp only at h2
    simp [loadCall, h2]
  · intro h2
    simp [reloadCall, h2]

/-- Witness for C9 on a world whose server validation rejects every
value: the failed first `load()` emits `error` and raises nothing, the
failed `reload()` raises and emits nothing. -/
theorem C9_error_propagation_witness :
    ((loadCall envInvalid ⟨none, false⟩).thrown = none ∧
      (loadCall envInvalid ⟨none, false⟩).events = [Ev.error Err.validation]) ∧
    ((reloadCall envInvalid ⟨none, false⟩).thrown = some Err.validation ∧
      (reloadCall envInvalid ⟨none, false⟩).events = []) :=
  ⟨(C9_error_propagation envInvalid ⟨none, false⟩ Err.validation).1 rfl (by decide),
    (C9_error_propagation envInvalid ⟨none, false⟩ Err.validation).2 (by decide)⟩

theorem setTopKey_obj (kvs : List (String × Value)) (k : String) (x : Value) :
    ∃ kvs2, setTopKey (Value.obj kvs) k x = Value.obj kvs2 := by
  simp only [setTopKey, setAtPath]
  cases h : lookupKey kvs k with
  | some w => exact ⟨_, rfl⟩
  | none => exact ⟨_, rfl⟩

theorem getKey_rootPathSteps_other (file : String) (v : Value) (k : String)
    (h : "rootPath" ≠ k) : getKey (rootPathSteps file v) k = getKey v k := by
  simp only [rootPathSteps]
  have h1 : getKey (if (getKey v "rootPath").isSome then v
      else setTopKey v "rootPath" (Value.str (dirname file))) k = getKey v k := by
    split
    · rfl
    · exact getKey_setTopKey_ne v "rootPath" k _ h
  split
  case h_1 r heq =>
    split
    · rw [getKey_setTopKey_ne _ "rootPath" k _ h]
      exact h1
    · exact h1
  case h_2 => exact h1

theorem getKey_middlewarePathSteps_other (v : Value) (k : String)
    (h : "middlewarePath" ≠ k) : getKey (middlewarePathSteps v) k = getKey v k := by
  simp only [middlewarePathSteps]
  have h1 : getKey (if (getKey v "middlewarePath").isSome then v
      else setTopKey v "middlewarePath"
        (Value.str (pathJoin (rootPathStr v) "middleware"))) k = getKey v k := by
    split
    · rfl
    · exact getKey_setTopKey_ne v "middlewarePath" k _ h
  split
  case h_1 r heq =>
    split
    · rw [getKey_setTopKey_ne _ "middlewarePath" k _ h]
      exact h1
    · exact h1
  case h_2 => exact h1

theorem rootPathSteps_obj (file : String) (kvs : List (String × Value)) :
    ∃ kvs2, rootPathSteps file (Value.obj kvs) = Value.obj kvs2 := by
  simp only [rootPathSteps]
  have h1 : ∃ kvs1, (if (getKey (Value.obj kvs) "rootPath").isSome then Value.obj kvs
      else setTopKey (Value.obj kvs) "rootPath" (Value.str (dirname file))) = Value.obj kvs1 := by
    split
    · exact ⟨kvs, rfl⟩
    · exact setTopKey_obj kvs "rootPath" _
  obtain ⟨kvs1, h1⟩ := h1
  rw [h1]
  split
  · split
    · exact setTopKey_obj kvs1 "rootPath" _
    · exact ⟨kvs1, rfl⟩
  · exact ⟨kvs1, rfl⟩

theorem rootPathSteps_absent (file : String) (kvs : List (String × Value))
    (h : lookupKey kvs "rootPath" = none)
    (hd : strStartsWith (dirname file) "." = false) :
    getKey (rootPathSteps file (Value.obj kvs)) "rootPath" =
      some (Value.str (dirname file)) := by
  have step1 : (if (getKey (Value.obj kvs) "rootPath").isSome then Value.obj kvs
      else setTopKey (Value.obj kvs) "rootPath" (Value.str (dirname file))) =
      setTopKey (Value.obj kvs) "rootPath" (Value.str (dirname file)) := by
    simp [getKey, h]
  simp only [rootPathSteps]
  rw [step1]
  simp only [getKey_setTopKey_self, hd, Bool.false_eq_true, if_false]

theorem rootPathSteps_relative (file : String) (kvs : List (String × Value)) (r : String)
    (h : lookupKey kvs "rootPath" = some (Value.str r))
    (hr : strStartsWith r "." = true) :
    getKey (rootPathSteps file (Value.obj kvs)) "rootPath" =
      some (Value.str (pathJoin (dirname file) r)) := by
  have hg : getKey (Value.obj kvs) "rootPath" = some (Value.str r) := h
  have step1 : (if (getKey (Value.obj kvs) "rootPath").isSome then Value.obj kvs
      else setTopKey (Value.obj kvs) "rootPath" (Value.str (dirname file))) = Value.obj kvs := by
    simp [hg]
  simp only [rootPathSteps]
  rw [step1]
  simp only [hg, hr, if_true]
  exact getKey_setTopKey_self kvs "rootPath" _

theorem rootPathSteps_keep (file : String) (kvs : List (String × Value)) (r : String)
    (h : lookupKey kvs "rootPath" = some (Value.str r))
    (hr : strStartsWith r "." = false) :
    getKey (rootPathSteps file (Value.obj kvs)) "rootPath" = some (Value.str r) := by
  have hg : getKey (Value.obj kvs) "rootPath" = some (Value.str r) := h
  have step1 : (if (getKey (Value.obj kvs) "rootPath").isSome then Value.obj kvs
      else setTopKey (Value.obj kvs) "rootPath" (Value.str (dirname file))) = Value.obj kvs := by
    simp [hg]
  simp only [rootPathSteps]
  rw [step1]
  simp only [hg, hr, Bool.false_eq_true, if_false]

theorem middlewarePathSteps_absent (kvs : List (String × Value))
    (h : lookupKey kvs "middlewarePath" = none)
    (hm : strStartsWith (pathJoin (rootPathStr (Value.obj kvs)) "middleware") "." = false) :
    getKey (middlewarePathSteps (Value.obj kvs)) "middlewarePath" =
      some (Value.str (pathJoin (rootPathStr (Value.obj kvs)) "middleware")) := by
  have step1 : (if (getKey (Value.obj kvs) "middlewarePath").isSome then Value.obj kvs
      else setTopKey (Value.obj kvs) "middlewarePath"
        (Value.str (pathJoin (rootPathStr (Value.obj kvs)) "middleware"))) =
      setTopKey (Value.obj kvs) "middlewarePath"
        (Value.str (pathJoin (rootPathStr (Value.obj kvs)) "middleware")) := by
    simp [getKey, h]
  simp only [middlewarePathSteps]
  rw [step1]
  simp only [getKey_setTopKey_self, hm, Bool.false_eq_true, if_false]

theorem middlewarePathSteps_relative (kvs : List (String × Value)) (m : String)
    (h : lookupKey kvs "middlewarePath" = some (Value.str m))
    (hm : strStartsWith m "." = true) :
    getKey (middlewarePathSteps (Value.obj kvs)) "middlewarePath" =
      some (Value.str (pathJoin (rootPathStr (Value.obj kvs)) m)) := by
  have hg : getKey (Value.obj kvs) "middlewarePath" = some (Value.str m) := h
  have step1 : (if (getKey (Value.obj kvs) "middlewarePath").isSome then Value.obj kvs
      else setTopKey (Value.obj kvs) "middlewarePath"
        (Value.str (pathJoin (rootPathStr (Value.obj kvs)) "middleware"))) = Value.obj kvs := by
    simp [hg]
  simp only [middlewarePathSteps]
  rw [step1]
  simp only [hg, hm, if_true]
  exact getKey_setTopKey_self kvs "middlewarePath" _

theorem middlewarePathSteps_keep (kvs : List (String × Value)) (m : String)
    (h : lookupKey kvs "middlewarePath" = some (Value.str m))
    (hm : strStartsWith m "." = false) :
    getKey (middlewarePathSteps (Value.obj kvs)) "middlewarePath" = some (Value.str m) := by
  have hg : getKey (Value.obj kvs) "middlewarePath" = some (Value.str m) := h
  have step1 : (if (getKey (Value.obj kvs) "middlewarePath").isSome then Value.obj kvs
      else setTopKey (Value.obj kvs) "middlewarePath"
        (Value.str (pathJoin (rootPathStr (Value.obj kvs)) "middleware"))) = Value.obj kvs := by
    simp [hg]
  simp only [middlewarePathSteps]
  rw [step1]
  simp only [hg, hm, Bool.false_eq_true, if_false]

/-- C6: the Path Defaulter defaults an absent `rootPath` to the config
file's directory, resolves a dot-prefixed `rootPath` against that
directory, defaults an absent `middlewarePath` to
`rootPath/middleware`, resolves a dot-prefixed `middlewarePath` against
the (already resolved) `rootPath` — not against the config file's
directory — and leaves present values that do not start with a dot
untouched. -/
theorem C6_path_defaulter (file : String) (kvs : List (String × Value)) :
    (lookupKey kvs "rootPath" = none → strStartsWith (dirname file) "." = false →
      getKey (applyPathDefaults file (Value.obj kvs)) "rootPath" =
        some (Value.str (dirname file))) ∧
    (∀ r, lookupKey kvs "rootPath" = some (Value.str r) → strStartsWith r "." = true →
      getKey (applyPathDefaults file (Value.obj kvs)) "rootPath" =
        some (Value.str (pathJoin (dirname file) r))) ∧
    (∀ r, lookupKey kvs "rootPath" = some (Value.str r) → strStartsWith r "." = false →
      getKey (applyPathDefaults file (Value.obj kvs)) "rootPath" = some (Value.str r)) ∧
    (lookupKey kvs "middlewarePath" = none →
      strStartsWith (pathJoin (rootPathStr (rootPathSteps file (Value.obj kvs))) "middleware")
        "." = false →
      getKey (applyPathDefaults file (Value.obj kvs)) "middlewarePath" =
        some (Value.str (pathJoin (rootPathStr (rootPathSteps file (Value.obj kvs)))
          "middleware"))) ∧
    (∀ m, lookupKey kvs "middlewarePath" = some (Value.str m) → strStartsWith m "." = true →
      getKey (applyPathDefaults file (Value.obj kvs)) "middlewarePath" =
        some (Value.str (pathJoin (rootPathStr (rootPathSteps file (Value.obj kvs))) m))) ∧
    (∀ m, lookupKey kvs "middlewarePath" = some (Value.str m) → strStartsWith m "." = false →
      getKey (applyPathDefaults file (Value.obj kvs)) "middlewarePath" =
        some (Value.str m)) := by
  obtain ⟨kvs1, hobj⟩ := rootPathSteps_obj file kvs
  have hmwpre : getKey (rootPathSteps file (Value.obj kvs)) "middlewarePath" =
      lookupKey kvs "middlewarePath" :=
    getKey_rootPathSteps_other file (Value.obj kvs) "middlewarePath" (by decide)
  have hrootkeep : ∀ x, getKey (middlewarePathSteps (rootPathSteps file (Value.obj kvs)))
      "rootPath" = x → getKey (applyPathDefaults file (Value.obj kvs)) "rootPath" = x := by
    intro x hx
    simpa [applyPathDefaults] using hx
  refine ⟨?_, ?_, ?_, ?_, ?_, ?_⟩
  · intro h hd
    exact hrootkeep _ ((getKey_middlewarePathSteps_other _ "rootPath" (by decide)).trans
      (rootPathSteps_absent file kvs h hd))
  · intro r h hr
    exact hrootkeep _ ((getKey_middlewarePathSteps_other _ "rootPath" (by decide)).trans
      (rootPathSteps_relative file kvs r h hr))
  · intro r h hr
    exact hrootkeep _ ((getKey_middlewarePathSteps_other _ "rootPath" (by decide)).trans
      (rootPathSteps_keep file kvs r h hr))
  · intro h hm
    have h1 : lookupKey kvs1 "middlewarePath" = none := by
      have h2 := hmwpre
      rw [hobj] at h2
      exact h2.trans h
    simp only [applyPathDefaults]
    rw [hobj] at hm ⊢
    exact middlewarePathSteps_absent kvs1 h1 hm
  · intro m h hm
    have h1 : lookupKey kvs1 "middlewarePath" = some (Value.str m) := by
      have h2 := hmwpre
      rw [hobj] at h2
      exact h2.trans h
    simp only [applyPathDefaults]
    rw [hobj]
    exact middlewarePathSteps_relative kvs1 m h1 hm
  · intro m h hm
    have h1 : lookupKey kvs1 "middlewarePath" = some (Value.str m) := by
      have h2 := hmwpre
      rw [hobj] at h2
      exact h2.trans h
    simp only [applyPathDefaults]
    rw [hobj]
    exact middlewarePathSteps_keep kvs1 m h1 hm

/-- Witness for C6: with the config file `/b/app`, an absent `rootPath`
defaults to `/b`; a relative `rootPath` `./r` resolves to `/b/r`; a
relative `middlewarePath` `./m` resolves against the resolved
`rootPath` `/q` (giving `/q/m`, not `/b/m`); absolute values are left
untouched. -/
theorem C6_path_defaulter_witness :
    getKey (applyPathDefaults "/b/app" (Value.obj [])) "rootPath" = some (Value.str "/b") ∧
    getKey (applyPathDefaults "/b/app" (Value.obj [("rootPath", Value.str "./r")]))
      "rootPath" = some (Value.str "/b/r") ∧
    getKey (applyPathDefaults "/b/app" (Value.obj [("rootPath", Value.str "/q"),
      ("middlewarePath", Value.str "./m")])) "rootPath" = some (Value.str "/q") ∧
    getKey (applyPathDefaults "/b/app" (Value.obj [("rootPath", Value.str "/q"),
      ("middlewarePath", Value.str "./m")])) "middlewarePath" = some (Value.str "/q/m") ∧
    getKey (applyPathDefaults "/b/app" (Value.obj [("rootPath", Value.str "/q")]))
      "middlewarePath" = some (Value.str "/q/middleware") ∧
    getKey (applyPathDefaults "/b/app" (Value.obj [("middlewarePath", Value.str "/w")]))
      "middlewarePath" = some (Value.str "/w") :=
  ⟨(C6_path_defaulter "/b/app" []).1 rfl (by decide),
    (C6_path_defaulter "/b/app" [("rootPath", Value.str "./r")]).2.1 "./r" (by decide)
      (by decide),
    by
      have h := (C6_path_defaulter "/b/app" [("rootPath", Value.str "/q"),
        ("middlewarePath", Value.str "./m")]).2.2.1 "/q" (by decide) (by decide)
      exact h,
    by
      have h := (C6_path_defaulter "/b/app" [("rootPath", Value.str "/q"),
        ("middlewarePath", Value.str "./m")]).2.2.2.2.1 "./m" (by decide) (by decide)
      simpa using h,
    by
      have h := (C6_path_defaulter "/b/app" [("rootPath", Value.str "/q")]).2.2.2.1
        (by decide) (by decide)
      simpa using h,
    (C6_path_defaulter "/b/app" [("middlewarePath", Value.str "/w")]).2.2.2.2.2 "/w"
      (by decide) (by decide)⟩

theorem getAtPath_setAtPath_append (p : List String) (k : String) (x : Value) :
    ∀ (v : Value) (kvs : List (String × Value)), getAtPath p v = some (Value.obj kvs) →
      getAtPath (p ++ [k]) (setAtPath (p ++ [k]) x v) = some x := by
  induction p with
  | nil =>
    intro v kvs h
    simp only [getAtPath, Option.some.injEq] at h
    subst h
    simp only [List.nil_append, setAtPath]
    cases hl : lookupKey kvs k with
    | some w =>
      simp only [hl, getAtPath, lookupKey_updateKey_same, hl, Option.map_some]
      rfl
    | none =>
      simp only [hl, List.isEmpty_nil, if_pos, getAtPath, lookupKey_append, hl, lookupKey,
        if_pos rfl]
  | cons a p' ih =>
    intro v kvs h
    cases v with
    | obj kvs0 =>
      simp only [getAtPath] at h
      cases hl : lookupKey kvs0 a with
      | none => rw [hl] at h; cases h
      | some w =>
        rw [hl] at h
        simp only [List.cons_append, getAtPath, setAtPath, hl, lookupKey_updateKey_same,
          Option.map_some]
        exact ih w kvs h
    | null => simp [getAtPath] at h
    | bool b => simp [getAtPath] at h
    | num n => simp [getAtPath] at h
    | str s => simp [getAtPath] at h
    | arr xs => simp [getAtPath] at h

/-- C4: with no stored gateway value and no (truthy) local gateway
value, the Store Overlay synthesizes the default gateway from the
packaged template with the freshly generated administrative secret,
persists it to the store and registers exactly one version marker; with
no stored value but a truthy local gateway value, the configuration is
accepted unchanged and no store write or version registration occurs. -/
theorem C4_store_seed_or_accept (e : Env) (cfg : Value) (h : truthyOpt e.stored = false) :
    (truthyOpt (getKey cfg "gateway") = false →
      (getConfigFromDB e cfg).config =
        setTopKey cfg "gateway" (loadDefaultGatewayConfig e.gatewayTemplate e.uuidVal) ∧
      (getConfigFromDB e cfg).saves =
        [loadDefaultGatewayConfig e.gatewayTemplate e.uuidVal] ∧
      (getConfigFromDB e cfg).versionRegs = 1 ∧
      (getConfigFromDB e cfg).outcome = Except.ok ()) ∧
    (truthyOpt (getKey cfg "gateway") = true →
      (getConfigFromDB e cfg).config = cfg ∧
      (getConfigFromDB e cfg).saves = [] ∧
      (getConfigFromDB e cfg).versionRegs = 0 ∧
      (getConfigFromDB e cfg).outcome = Except.ok ()) ∧
    (∀ kvs, getAtPath ["admin", "userService"] e.gatewayTemplate = some (Value.obj kvs) →
      getAtPath ["admin", "userService", "jwtSecret"]
        (loadDefaultGatewayConfig e.gatewayTemplate e.uuidVal) =
        some (Value.str e.uuidVal)) := by
  refine ⟨?_, ?_, ?_⟩
  · intro hg
    simp [getConfigFromDB, h, hg]
  · intro hg
    simp [getConfigFromDB, h, hg]
  · intro kvs hk
    have := getAtPath_setAtPath_append ["admin", "userService"] "jwtSecret"
      (Value.str e.uuidVal) e.gatewayTemplate kvs hk
    simpa [loadDefaultGatewayConfig] using this

/-- Witness for C4 on the base world: an empty local configuration gets
the seeded template gateway (secret `u1`) saved once with one version
marker; a configuration with a local gateway value passes through with
no store write. -/
theorem C4_store_seed_or_accept_witness :
    ((getConfigFromDB envBase (Value.obj [])).config =
      setTopKey (Value.obj [])
        "gateway" (loadDefaultGatewayConfig envBase.gatewayTemplate envBase.uuidVal) ∧
      (getConfigFromDB envBase (Value.obj [])).saves =
        [loadDefaultGatewayConfig envBase.gatewayTemplate envBase.uuidVal] ∧
      (getConfigFromDB envBase (Value.obj [])).versionRegs = 1 ∧
      (getConfigFromDB envBase (Value.obj [])).outcome = Except.ok ()) ∧
    ((getConfigFromDB envBase
        (Value.obj [("gateway", Value.obj [("protocol", Value.obj [])])])).config =
      Value.obj [("gateway", Value.obj [("protocol", Value.obj [])])] ∧
      (getConfigFromDB envBase
        (Value.obj [("gateway", Value.obj [("protocol", Value.obj [])])])).saves = []) ∧
    getAtPath ["admin", "userService", "jwtSecret"]
      (loadDefaultGatewayConfig envBase.gatewayTemplate envBase.uuidVal) =
      some (Value.str envBase.uuidVal) :=
  ⟨(C4_store_seed_or_accept envBase (Value.obj []) (by decide)).1 (by decide),
    ⟨((C4_store_seed_or_accept envBase
        (Value.obj [("gateway", Value.obj [("protocol", Value.obj [])])])
        (by decide)).2.1 (by decide)).1,
      ((C4_store_seed_or_accept envBase
        (Value.obj [("gateway", Value.obj [("protocol", Value.obj [])])])
        (by decide)).2.1 (by decide)).2.1⟩,
    (C4_store_seed_or_accept envBase (Value.obj []) (by decide)).2.2
      [] (by decide)⟩

theorem lookupKey_defaultsKVs (dk sk : List (String × Value)) (k : String) :
    lookupKey (defaultsKVs dk sk) k =
      (lookupKey dk k).map (fun v =>
        match lookupKey sk k with
        | some w => defaultsDeep v w
        | none => v) := by
  induction dk with
  | nil => simp [defaultsKVs, lookupKey]
  | cons kv rest ih =>
    obtain ⟨k0, v0⟩ := kv
    by_cases h0 : k0 = k
    · subst h0
      simp [defaultsKVs, lookupKey]
    · simp [defaultsKVs, lookupKey, h0, ih]

theorem lookupKey_missingKeys (dk sk : List (String × Value)) (k : String) :
    lookupKey (missingKeys dk sk) k =
      match lookupKey dk k with
      | some _ => none
      | none => lookupKey sk k := by
  induction sk with
  | nil => cases h : lookupKey dk k <;> simp [missingKeys, lookupKey, h]
  | cons kv rest ih =>
    obtain ⟨k0, w0⟩ := kv
    simp only [missingKeys, List.filter_cons] at ih ⊢
    by_cases h0 : k0 = k
    · subst h0
      cases h : lookupKey dk k0 with
      | none => simp [h, lookupKey]
      | some v =>
        simp only [h, Option.isNone_some, Bool.false_eq_true, if_false]
        rw [ih, h]
    · cases hk0 : lookupKey dk k0 with
      | none =>
        simp only [hk0, Option.isNone_none, if_true, lookupKey, if_neg h0]
        rw [ih]
      | some v =>
        simp only [hk0, Option.isNone_some, Bool.false_eq_true, if_false, lookupKey,
          if_neg h0]
        rw [ih]

theorem getKey_defaultsDeep_obj (sk lk : List (String × Value)) (k : String) :
    getKey (defaultsDeep (Value.obj sk) (Value.obj lk)) k =
      match lookupKey sk k with
      | some v => some (match lookupKey lk k with
                        | some w => defaultsDeep v w
                        | none => v)
      | none => lookupKey lk k := by
  simp only [defaultsDeep, getKey, lookupKey_append, lookupKey_defaultsKVs,
    lookupKey_missingKeys]
  cases h : lookupKey sk k <;> simp [h]

theorem truthy_defaultsDeep (d s : Value) (h : truthy d = true) :
    truthy (defaultsDeep d s) = true := by
  cases d <;> cases s <;> simp_all [defaultsDeep, truthy]

/-- Equation lemmas for the faithful merge: arrays merge index-wise,
scalars and mixed shapes keep the destination. -/
theorem defaultsDeep_arr_arr (ds ss : List Value) :
    defaultsDeep (Value.arr ds) (Value.arr ss) = Value.arr (defaultsArr ds ss) := by
  simp [defaultsDeep]

theorem defaultsArr_nil_left (ss : List Value) : defaultsArr [] ss = ss := by
  cases ss <;> simp [defaultsArr]

theorem defaultsArr_nil_right (d : Value) (ds : List Value) :
    defaultsArr (d :: ds) [] = d :: ds := by
  simp [defaultsArr]

theorem defaultsArr_cons (d s : Value) (ds ss : List Value) :
    defaultsArr (d :: ds) (s :: ss) = defaultsDeep d s :: defaultsArr ds ss := by
  simp [defaultsArr]

theorem defaultsDeep_scalar (v w : Value) (h1 : ∀ dk, v ≠ Value.obj dk)
    (h2 : ∀ ds, v ≠ Value.arr ds) : defaultsDeep v w = v := by
  cases v with
  | obj dk => exact absurd rfl (h1 dk)
  | arr ds => exact absurd rfl (h2 ds)
  | null => cases w <;> simp [defaultsDeep]
  | bool b => cases w <;> simp [defaultsDeep]
  | num n => cases w <;> simp [defaultsDeep]
  | str s0 => cases w <;> simp [defaultsDeep]

/-- C3 counterexample: the store holds a gateway whose `filter` is the
one-element array `["a"]` while the local file value binds `filter` to
`["a", "b"]`; the Store Overlay run succeeds, but the merged gateway's
`filter` is `["a", "b"]` — lodash `_.defaultsDeep` back-fills the
stored array index-wise from the local one — so the merged value does
not equal the stored value on a key the stored value defines. -/
theorem C3_store_overlay_counterexample :
    getKey storedArrGateway "filter" = some (Value.arr [Value.str "a"]) ∧
    (getConfigFromDB envStoredArr (Value.obj [("gateway", localArrGateway)])).outcome =
      Except.ok () ∧
    getAtPath ["gateway", "filter"]
      (getConfigFromDB envStoredArr (Value.obj [("gateway", localArrGateway)])).config =
      some (Value.arr [Value.str "a", Value.str "b"]) := by
  decide

/-- C3 amended: when a stored gateway value `S` is present, the Store
Overlay replaces the configuration's gateway by `defaultsDeep S L`
(stored wins, local file value `L` fills the gaps): on keys `S` omits
the merge falls back to `L`; on keys `S` binds to a scalar (or where the
two sides have different shapes) the stored value survives unchanged;
keys bound to objects on both sides merge recursively; and keys bound
to arrays on both sides merge index-wise — stored elements win position
by position and local elements beyond the stored array's length are
appended, so the merged value at such a key need not equal `S`'s value.
When the merged value has no truthy `protocol` field the run does not
succeed — with the missing-protocol failure whenever the merged value
passed gateway validation. -/
theorem C3_store_overlay (e : Env) (cfg : Value) (S : Value)
    (hS : e.stored = some S) (hSt : truthy S = true) :
    ((getConfigFromDB e cfg).config =
      setTopKey cfg "gateway" (defaultsDeep S ((getKey cfg "gateway").getD Value.null))) ∧
    (∀ sk lk k, S = Value.obj sk →
      (getKey cfg "gateway").getD Value.null = Value.obj lk →
      (lookupKey sk k = none →
        getKey (defaultsDeep S ((getKey cfg "gateway").getD Value.null)) k =
          lookupKey lk k) ∧
      (∀ v, lookupKey sk k = some v →
        getKey (defaultsDeep S ((getKey cfg "gateway").getD Value.null)) k =
          some (match lookupKey lk k with
                | some w => defaultsDeep v w
                | none => v))) ∧
    (∀ v w, (∀ dk, v ≠ Value.obj dk) → (∀ ds, v ≠ Value.arr ds) → defaultsDeep v w = v) ∧
    (∀ ds ss, defaultsDeep (Value.arr ds) (Value.arr ss) = Value.arr (defaultsArr ds ss)) ∧
    (∀ ss, defaultsArr [] ss = ss) ∧
    (∀ d ds, defaultsArr (d :: ds) [] = d :: ds) ∧
    (∀ d s ds ss, defaultsArr (d :: ds) (s :: ss) = defaultsDeep d s :: defaultsArr ds ss) ∧
    (truthyOpt (getKey (defaultsDeep S ((getKey cfg "gateway").getD Value.null)) "protocol")
        = false →
      (getConfigFromDB e cfg).outcome ≠ Except.ok () ∧
      (e.gatewayValid (defaultsDeep S ((getKey cfg "gateway").getD Value.null)) = true →
        (getConfigFromDB e cfg).outcome = Except.error Err.missingProtocol)) := by
  have hsomeS : truthyOpt (some S) = true := hSt
  refine ⟨?_, ?_, ?_, ?_, ?_, ?_, ?_, ?_⟩
  · simp only [getConfigFromDB, hS, Option.getD_some, hsomeS, if_true]
    split
    · split <;> rfl
    · rfl
  · intro sk lk k hSeq hLeq
    rw [hSeq, hLeq]
    constructor
    · intro h
      rw [getKey_defaultsDeep_obj]
      simp [h]
    · intro v h
      rw [getKey_defaultsDeep_obj]
      simp [h]
  · exact fun v w h1 h2 => defaultsDeep_scalar v w h1 h2
  · exact fun ds ss => defaultsDeep_arr_arr ds ss
  · exact fun ss => defaultsArr_nil_left ss
  · exact fun d ds => defaultsArr_nil_right d ds
  · exact fun d s ds ss => defaultsArr_cons d s ds ss
  · intro hp
    constructor
    · simp only [getConfigFromDB, hS, Option.getD_some, hsomeS, if_true, hp,
        Bool.false_eq_true, if_false]
      split <;> simp
    · intro hv
      simp only [getConfigFromDB, hS, Option.getD_some, hsomeS, if_true, hv, hp,
        Bool.false_eq_true, if_false]

/-- Witness for the amended C3: a stored value overrides the shared
scalar key `x`, falls back to the local value on the omitted key `y`,
back-fills a stored array index-wise from a longer local array, and a
stored value without `protocol` makes the run fail with the
missing-protocol error. -/
theorem C3_store_overlay_witness :
    ((getConfigFromDB { envBase with stored := some (Value.obj [("protocol",
        Value.obj [("p", Value.num 1)]), ("x", Value.num 5)]) }
      (Value.obj [("gateway", Value.obj [("x", Value.num 9), ("y", Value.num 7)])])).config =
      setTopKey (Value.obj [("gateway", Value.obj [("x", Value.num 9), ("y", Value.num 7)])])
        "gateway" (defaultsDeep
          (Value.obj [("protocol", Value.obj [("p", Value.num 1)]), ("x", Value.num 5)])
          (Value.obj [("x", Value.num 9), ("y", Value.num 7)]))) ∧
    getKey (defaultsDeep
        (Value.obj [("protocol", Value.obj [("p", Value.num 1)]), ("x", Value.num 5)])
        (Value.obj [("x", Value.num 9), ("y", Value.num 7)])) "y" = some (Value.num 7) ∧
    getKey (defaultsDeep
        (Value.obj [("protocol", Value.obj [("p", Value.num 1)]), ("x", Value.num 5)])
        (Value.obj [("x", Value.num 9), ("y", Value.num 7)])) "x" = some (Value.num 5) ∧
    defaultsDeep (Value.arr [Value.str "a"]) (Value.arr [Value.str "a", Value.str "b"]) =
      Value.arr [Value.str "a", Value.str "b"] ∧
    (getConfigFromDB { envBase with stored := some (Value.obj [("a", Value.num 1)]) }
      (Value.obj [])).outcome = Except.error Err.missingProtocol := by
  have h1 := C3_store_overlay
    { envBase with stored := some (Value.obj [("protocol",
        Value.obj [("p", Value.num 1)]), ("x", Value.num 5)]) }
    (Value.obj [("gateway", Value.obj [("x", Value.num 9), ("y", Value.num 7)])])
    (Value.obj [("protocol", Value.obj [("p", Value.num 1)]), ("x", Value.num 5)])
    rfl (by decide)
  have h2 := C3_store_overlay
    { envBase with stored := some (Value.obj [("a", Value.num 1)]) }
    (Value.obj []) (Value.obj [("a", Value.num 1)]) rfl (by decide)
  refine ⟨h1.1, ?_, ?_, ?_, ?_⟩
  · have := (h1.2.1 [("protocol", Value.obj [("p", Value.num 1)]), ("x", Value.num 5)]
      [("x", Value.num 9), ("y", Value.num 7)] "y" rfl (by decide)).1 (by decide)
    simpa using this
  · have := (h1.2.1 [("protocol", Value.obj [("p", Value.num 1)]), ("x", Value.num 5)]
      [("x", Value.num 9), ("y", Value.num 7)] "x" rfl (by decide)).2
      (Value.num 5) (by decide)
    simpa using this
  · exact (h1.2.2.2.1 [Value.str "a"] [Value.str "a", Value.str "b"]).trans (by decide)
  · exact (h2.2.2.2.2.2.2.2 (by decide)).2 (by decide)

/-- C7 counterexample: with `NODE_ENV = test`, the overlay file binds
`filter` to the one-element array `["x"]` and the base file binds it to
`["a", "b"]`; the resolved value binds `filter` to `["x", "b"]` —
lodash `_.defaultsDeep` back-fills the overlay array index-wise from
the base one — so the result does not equal the overlay on a key the
overlay defines. -/
theorem C7_environment_overlay_counterexample :
    loadConfigObject envNodeArr.fs "/b/app-test" =
      some (Value.obj [("filter", Value.arr [Value.str "x"])]) ∧
    getKey (Value.obj [("filter", Value.arr [Value.str "x"])]) "filter" =
      some (Value.arr [Value.str "x"]) ∧
    getKey (loadServerConfig envNodeArr "/b/app").cfg "filter" =
      some (Value.arr [Value.str "x", Value.str "b"]) := by
  decide

/-- C7 amended: when a deployment-environment name is set and both the
base file value `B` and the overlay file value `O` are found,
`loadServerConfig` produces `defaultsDeep O B`: on keys `O` omits the
result falls back to `B`; on keys `O` binds to a scalar (or where the
two sides have different shapes) the overlay value survives unchanged;
keys bound to objects on both sides merge recursively; and keys bound
to arrays on both sides merge index-wise — overlay elements win
position by position and base elements beyond the overlay array's
length are appended, so the result at such a key need not equal `O`'s
value.  When no environment name is set, the stage is skipped and the
base value passes through unchanged. -/
theorem C7_environment_overlay (e : Env) (fn : String) :
    (∀ en B O, e.nodeEnv = some en → en ≠ "" →
      loadConfigObject e.fs fn = some B →
      loadConfigObject e.fs (fn ++ "-" ++ en) = some O → truthy O = true →
      (loadServerConfig e fn).cfg = defaultsDeep O B ∧
      (loadServerConfig e fn).bootstrapped = false) ∧
    (∀ B, e.nodeEnv = none → loadConfigObject e.fs fn = some B → truthy B = true →
      (loadServerConfig e fn).cfg = B ∧ (loadServerConfig e fn).bootstrapped = false) ∧
    (∀ ok bk k,
      (lookupKey ok k = none →
        getKey (defaultsDeep (Value.obj ok) (Value.obj bk)) k = lookupKey bk k) ∧
      (∀ v, lookupKey ok k = some v →
        getKey (defaultsDeep (Value.obj ok) (Value.obj bk)) k =
          some (match lookupKey bk k with
                | some w => defaultsDeep v w
                | none => v))) ∧
    (∀ v w, (∀ dk, v ≠ Value.obj dk) → (∀ ds, v ≠ Value.arr ds) → defaultsDeep v w = v) ∧
    (∀ ds ss, defaultsDeep (Value.arr ds) (Value.arr ss) = Value.arr (defaultsArr ds ss)) ∧
    (∀ ss, defaultsArr [] ss = ss) ∧
    (∀ d ds, defaultsArr (d :: ds) [] = d :: ds) ∧
    (∀ d s ds ss, defaultsArr (d :: ds) (s :: ss) = defaultsDeep d s :: defaultsArr ds ss) := by
  refine ⟨?_, ?_, ?_, ?_, ?_, ?_, ?_, ?_⟩
  · intro en B O hen hne hB hO hOt
    have ht : truthy (defaultsDeep O B) = true := truthy_defaultsDeep O B hOt
    simp only [loadServerConfig, hen, hne, if_neg, hB, hO, hOt, if_true, Option.getD_some,
      truthyOpt, ht, Bool.false_eq_true, if_false]
    exact ⟨trivial, trivial⟩
  · intro B hen hB hBt
    simp only [loadServerConfig, hen, hB, truthyOpt, hBt, if_true]
    simp
  · intro ok bk k
    constructor
    · intro h
      rw [getKey_defaultsDeep_obj]
      simp [h]
    · intro v h
      rw [getKey_defaultsDeep_obj]
      simp [h]
  · exact fun v w h1 h2 => defaultsDeep_scalar v w h1 h2
  · exact fun ds ss => defaultsDeep_arr_arr ds ss
  · exact fun ss => defaultsArr_nil_left ss
  · exact fun d ds => defaultsArr_nil_right d ds
  · exact fun d s ds ss => defaultsArr_cons d s ds ss

/-- Witness for the amended C7: with `NODE_ENV = test`, the overlay
`/b/app-test.yml` wins on its scalar keys and the base `/b/app.yml`
fills the rest; an overlay array is back-filled index-wise from a
longer base array; with no environment name the base passes through
unchanged. -/
theorem C7_environment_overlay_witness :
    (loadServerConfig envNodeTest "/b/app").cfg =
      defaultsDeep (Value.obj [("b", Value.num 3)])
        (Value.obj [("a", Value.num 1), ("b", Value.num 2)]) ∧
    getKey (defaultsDeep (Value.obj [("b", Value.num 3)])
      (Value.obj [("a", Value.num 1), ("b", Value.num 2)])) "a" = some (Value.num 1) ∧
    getKey (defaultsDeep (Value.obj [("b", Value.num 3)])
      (Value.obj [("a", Value.num 1), ("b", Value.num 2)])) "b" = some (Value.num 3) ∧
    (loadServerConfig envNodeArr "/b/app").cfg =
      defaultsDeep (Value.obj [("filter", Value.arr [Value.str "x"])])
        (Value.obj [("filter", Value.arr [Value.str "a", Value.str "b"])]) ∧
    defaultsDeep (Value.arr [Value.str "x"]) (Value.arr [Value.str "a", Value.str "b"]) =
      Value.arr [Value.str "x", Value.str "b"] ∧
    (loadServerConfig envBase "/b/app").cfg =
      Value.obj [("rootPath", Value.str "/b/r")] := by
  have h1 := (C7_environment_overlay envNodeTest "/b/app").1
    "test" (Value.obj [("a", Value.num 1), ("b", Value.num 2)])
    (Value.obj [("b", Value.num 3)]) rfl (by decide) (by decide) (by decide) (by decide)
  have h2 := (C7_environment_overlay envBase "/b/app").2.1
    (Value.obj [("rootPath", Value.str "/b/r")]) rfl (by decide) (by decide)
  have h3 := (C7_environment_overlay envBase "/b/app").2.2.1
    [("b", Value.num 3)] [("a", Value.num 1), ("b", Value.num 2)]
  have h4 := (C7_environment_overlay envNodeArr "/b/app").1
    "test" (Value.obj [("filter", Value.arr [Value.str "a", Value.str "b"])])
    (Value.obj [("filter", Value.arr [Value.str "x"])])
    rfl (by decide) (by decide) (by decide) (by decide)
  have h5 := (C7_environment_overlay envBase "/b/app").2.2.2.2.1
    [Value.str "x"] [Value.str "a", Value.str "b"]
  refine ⟨h1.1, ?_, ?_, h4.1, h5.trans (by decide), h2.1⟩
  · have := (h3 "a").1 (by decide)
    simpa using this
  · have := (h3 "b").2 (Value.num 3) (by decide)
    simpa using this

/-- C1 counterexample: composing the very same stage functions in the
order the specification claims (Format Loader → Environment Overlay →
Variable Interpolator → Path Defaulter with TLS resolution → Array
Normalizer → Store Overlay) disagrees with `loadGatewayConfig` on a
world whose base file sets `rootPath` to an environment-variable
reference resolving to `./s`: the source leaves `rootPath` as `./s`
(interpolation runs after the Path Defaulter), the claimed order yields
`/b/s`. -/
theorem C1_stage_order_counterexample :
    ¬ (loadGatewayConfig envVarRoot none "/b/app" =
        specOrderedLoadGatewayConfig envVarRoot none "/b/app") := by
  decide

/-- C1 amended: the pipeline runs Format Loader and Environment Overlay
(`loadServerConfig`), then server validation, then the
`rootPath`/`middlewarePath` Path Defaulter steps, then the Variable
Interpolator, then the Array Normalizer, then the Store Overlay, and
resolves the TLS paths only after the Store Overlay — each stage
consuming the previous stage's output. -/
theorem C1_pipeline_order (e : Env) (cfg0 : Option Value) (f : String)
    (hv : e.serverValid (loadServerConfig e (resolveConfigFileName e f)).cfg = true)
    (hdb : (getConfigFromDB e (castArraysFn (deepMapStrings (checkEnvVariable e.vars)
      (applyPathDefaults (resolveConfigFileName e f)
        (loadServerConfig e (resolveConfigFileName e f)).cfg)))).outcome = Except.ok ()) :
    (loadGatewayConfig e cfg0 f).config =
      some (applyTls (getConfigFromDB e (castArraysFn (deepMapStrings
        (checkEnvVariable e.vars) (applyPathDefaults (resolveConfigFileName e f)
          (loadServerConfig e (resolveConfigFileName e f)).cfg)))).config) ∧
    (loadGatewayConfig e cfg0 f).outcome = Except.ok () := by
  simp only [loadGatewayConfig, hv, if_true]
  split
  · next err heq => simp [heq] at hdb
  · exact ⟨rfl, rfl⟩

/-- Witness for C1 on the base world. -/
theorem C1_pipeline_order_witness :
    (loadGatewayConfig envBase none "/b/app").config =
      some (applyTls (getConfigFromDB envBase (castArraysFn (deepMapStrings
        (checkEnvVariable envBase.vars) (applyPathDefaults
          (resolveConfigFileName envBase "/b/app")
          (loadServerConfig envBase (resolveConfigFileName envBase "/b/app")).cfg)))).config) ∧
    (loadGatewayConfig envBase none "/b/app").outcome = Except.ok () :=
  C1_pipeline_order envBase none "/b/app" (by decide) (by decide)

/-- C5 counterexample: with the configured base path `./app-config` and
no configuration file at all, the first `load()` runs the Bootstrap
Provider but writes the generated file at `/c/tree-gateway.yaml` — not
at `./app-config.<ext>` — and a second `load()` with the same path
re-triggers the Bootstrap Provider. -/
theorem C5_bootstrap_counterexample :
    (loadCall envBootstrap ⟨none, false⟩).run.bootstrapped = true ∧
    (loadCall envBootstrap ⟨none, false⟩).run.fsWrites.map Prod.fst =
      ["/c/tree-gateway.yaml"] ∧
    (loadCall envBootstrapSecond ⟨none, false⟩).run.bootstrapped = true := by
  decide

theorem strStartsWith_tg_append (s : String) :
    strStartsWith ("tree-gateway" ++ s) "./" = false := rfl

theorem pathJoin_tg_append (a s : String) :
    pathJoin a "tree-gateway" ++ s = pathJoin a ("tree-gateway" ++ s) := by
  have h1 : strStartsWith "tree-gateway" "./" = false := rfl
  have h2 : strStartsWith ("tree-gateway" ++ s) "./" = false := strStartsWith_tg_append s
  simp only [pathJoin, h1, h2, Bool.false_eq_true, if_false]
  by_cases ha : a = ""
  · rw [if_pos ha, if_pos ha]
  · rw [if_neg ha, if_neg ha]
    by_cases he : strEndsWith a "/" = true
    · rw [if_pos he, if_pos he, String.append_assoc]
    · rw [if_neg he, if_neg he, String.append_assoc]

theorem pathJoin_len_ne (a s t : String)
    (hs : strStartsWith s "./" = false) (ht : strStartsWith t "./" = false)
    (h : s.length ≠ t.length) : pathJoin a s ≠ pathJoin a t := by
  intro heq
  simp only [pathJoin, hs, ht, Bool.false_eq_true, if_false] at heq
  by_cases ha : a = ""
  · rw [if_pos ha, if_pos ha] at heq
    exact h (congrArg String.length heq)
  · rw [if_neg ha, if_neg ha] at heq
    by_cases he : strEndsWith a "/" = true
    · rw [if_pos he, if_pos he] at heq
      have hl := congrArg String.length heq
      simp only [String.length_append] at hl
      exact h (by omega)
    · rw [if_neg he, if_neg he] at heq
      have hl := congrArg String.length heq
      simp only [String.length_append] at hl
      exact h (by omega)

theorem createRedisConfiguration_obj (tk : List (String × Value)) (a : Answers) :
    ∃ kvs, createRedisConfiguration (Value.obj tk) a = Value.obj kvs := by
  simp only [createRedisConfiguration, setAtPath]
  cases hl : lookupKey tk "database" with
  | some w => exact ⟨_, rfl⟩
  | none => exact ⟨_, rfl⟩

/-- C5 amended: the Bootstrap Provider always writes the generated
configuration at `<cwd>/tree-gateway.yaml`, regardless of the configured
base path; consequently a second `load()` finds the generated file and
skips bootstrap only when the configured base path resolves to
`<cwd>/tree-gateway` (the default), and with any other base path — such
as `./app-config` — the second `load()` re-triggers the Bootstrap
Provider. -/
theorem C5_bootstrap_fixed_filename (e : Env) (name : String) :
    ((loadServerConfig e name).bootstrapped = true →
      (loadServerConfig e name).fsWrites =
        [(pathJoin e.cwd "tree-gateway.yaml", (loadServerConfig e name).cfg)]) ∧
    (∀ tk, e.nodeEnv = none → e.serverTemplate = Value.obj tk →
      lookupKey e.fs (pathJoin e.cwd "tree-gateway.yml") = none →
      lookupKey e.fs (pathJoin e.cwd "tree-gateway.yaml") = none →
      lookupKey e.fs (pathJoin e.cwd "tree-gateway.json") = none →
      (loadServerConfig e (pathJoin e.cwd "tree-gateway")).bootstrapped = true ∧
      (loadServerConfig { e with fs := e.fs ++
          (loadServerConfig e (pathJoin e.cwd "tree-gateway")).fsWrites }
        (pathJoin e.cwd "tree-gateway")).bootstrapped = false) := by
  constructor
  · intro hb
    simp only [loadServerConfig] at hb ⊢
    split at hb
    · simp at hb
    · next hcond =>
      rw [if_neg hcond]
      simp [loadDefaultServerConfig]
  · intro tk hne htmpl h1 h2 h3
    have e1 : pathJoin e.cwd "tree-gateway" ++ ".yml" = pathJoin e.cwd "tree-gateway.yml" :=
      pathJoin_tg_append e.cwd ".yml"
    have e2 : pathJoin e.cwd "tree-gateway" ++ ".yaml" =
        pathJoin e.cwd "tree-gateway.yaml" :=
      pathJoin_tg_append e.cwd ".yaml"
    have e3 : pathJoin e.cwd "tree-gateway" ++ ".json" =
        pathJoin e.cwd "tree-gateway.json" :=
      pathJoin_tg_append e.cwd ".json"
    obtain ⟨kvs, hk⟩ := createRedisConfiguration_obj tk e.answers
    have hfirstcfg : loadConfigObject e.fs (pathJoin e.cwd "tree-gateway") = none := by
      simp only [loadConfigObject, e1, e2, e3, h1, h2, h3]
    constructor
    · simp [loadServerConfig, hne, hfirstcfg, truthyOpt]
    · have hw : (loadServerConfig e (pathJoin e.cwd "tree-gateway")).fsWrites =
          [(pathJoin e.cwd "tree-gateway.yaml",
            createRedisConfiguration e.serverTemplate e.answers)] := by
        simp [loadServerConfig, hne, hfirstcfg, truthyOpt, loadDefaultServerConfig]
      rw [hw]
      have hnekey : pathJoin e.cwd "tree-gateway.yaml" ≠ pathJoin e.cwd "tree-gateway.yml" :=
        pathJoin_len_ne e.cwd "tree-gateway.yaml" "tree-gateway.yml" rfl rfl (by decide)
      have hyml : lookupKey (e.fs ++ [(pathJoin e.cwd "tree-gateway.yaml",
          createRedisConfiguration e.serverTemplate e.answers)])
          (pathJoin e.cwd "tree-gateway" ++ ".yml") = none := by
        rw [e1, lookupKey_append, h1]
        simp only [lookupKey, if_neg hnekey]
      have hyaml : lookupKey (e.fs ++ [(pathJoin e.cwd "tree-gateway.yaml",
          createRedisConfiguration e.serverTemplate e.answers)])
          (pathJoin e.cwd "tree-gateway" ++ ".yaml") =
          some (createRedisConfiguration e.serverTemplate e.answers) := by
        rw [e2, lookupKey_append, h2]
        simp [lookupKey]
      have hsecond : loadConfigObject (e.fs ++ [(pathJoin e.cwd "tree-gateway.yaml",
          createRedisConfiguration e.serverTemplate e.answers)])
          (pathJoin e.cwd "tree-gateway") =
          some (createRedisConfiguration e.serverTemplate e.answers) := by
        simp only [loadConfigObject, hyml, hyaml]
      have htr : truthy (createRedisConfiguration e.serverTemplate e.answers) = true := by
        rw [htmpl, hk]
        rfl
      simp [loadServerConfig, hsecond, hne, truthyOpt, htr]

/-- Witness for the amended C5: a bootstrap run writes
`<cwd>/tree-gateway.yaml`, and with the default base path the second
load finds the generated file and skips bootstrap. -/
theorem C5_bootstrap_fixed_filename_witness :
    (loadServerConfig envBootstrap "/c/app-config").fsWrites =
      [(pathJoin envBootstrap.cwd "tree-gateway.yaml",
        (loadServerConfig envBootstrap "/c/app-config").cfg)] ∧
    (loadServerConfig envBootstrapDefault
      (pathJoin envBootstrapDefault.cwd "tree-gateway")).bootstrapped = true ∧
    (loadServerConfig { envBootstrapDefault with fs := envBootstrapDefault.fs ++
        (loadServerConfig envBootstrapDefault
          (pathJoin envBootstrapDefault.cwd "tree-gateway")).fsWrites }
      (pathJoin envBootstrapDefault.cwd "tree-gateway")).bootstrapped = false := by
  have ha := (C5_bootstrap_fixed_filename envBootstrap "/c/app-config").1 (by decide)
  have hb := (C5_bootstrap_fixed_filename envBootstrapDefault "x").2
    [("database", Value.obj [])] rfl (by decide) (by decide) (by decide) (by decide)
  exact ⟨ha, hb.1, hb.2⟩

theorem toArr_toArr (v : Value) : toArr (toArr v) = toArr v := by
  cases v <;> rfl

theorem toArr_isArr (v : Value) : ∃ xs, toArr v = Value.arr xs := by
  cases v <;> exact ⟨_, rfl⟩

theorem castArrayAt_get_self (p : List String) :
    ∀ v : Value, getAtPath p (castArrayAt p v) = (getAtPath p v).map toArr := by
  induction p with
  | nil =>
    intro v
    simp [getAtPath, castArrayAt]
  | cons k ks ih =>
    intro v
    cases v with
    | obj kvs =>
      cases hl : lookupKey kvs k with
      | some w =>
        simp only [castArrayAt, hl, getAtPath, lookupKey_updateKey_same, Option.map_some]
        exact ih w
      | none =>
        simp only [castArrayAt, hl, getAtPath]
        rfl
    | null => rfl
    | bool b => rfl
    | num n => rfl
    | str s => rfl
    | arr xs => rfl

theorem getAtPath_castArrayAt_diverge (q p : List String) (hd : divergesB q p = true) :
    ∀ v : Value, getAtPath p (castArrayAt q v) = getAtPath p v := by
  induction q generalizing p with
  | nil => simp [divergesB] at hd
  | cons a q' ih =>
    intro v
    cases p with
    | nil => simp [divergesB] at hd
    | cons b p' =>
      simp only [divergesB, Bool.or_eq_true, bne_iff_ne, ne_eq] at hd
      cases v with
      | obj kvs =>
        cases hl : lookupKey kvs a with
        | some w =>
          simp only [castArrayAt, hl, getAtPath]
          by_cases hab : a = b
          · subst hab
            rcases hd with hne | hd'
            · exact absurd rfl hne
            · rw [lookupKey_updateKey_same, hl]
              exact ih p' hd' w
          · rw [lookupKey_updateKey_ne kvs a b _ hab]
        | none => simp only [castArrayAt, hl]
      | null => rfl
      | bool b0 => rfl
      | num n => rfl
      | str s => rfl
      | arr xs => rfl

theorem divergesB_irrefl (p : List String) : divergesB p p = false := by
  induction p with
  | nil => rfl
  | cons a p' ih => simp [divergesB, ih]

theorem castArrayAt_id_of_norm (p : List String) :
    ∀ v : Value,
      (getAtPath p v = none ∨ ∃ xs, getAtPath p v = some (Value.arr xs)) →
      castArrayAt p v = v := by
  induction p with
  | nil =>
    intro v h
    rcases h with h | ⟨xs, h⟩
    · simp [getAtPath] at h
    · simp only [getAtPath, Option.some.injEq] at h
      subst h
      rfl
  | cons k ks ih =>
    intro v h
    cases v with
    | obj kvs =>
      cases hl : lookupKey kvs k with
      | some w =>
        simp only [getAtPath, hl] at h
        simp only [castArrayAt, hl]
        rw [ih w h, updateKey_self kvs k w hl]
      | none => simp only [castArrayAt, hl]
    | null => rfl
    | bool b => rfl
    | num n => rfl
    | str s => rfl
    | arr xs => rfl

theorem optionMap_toArr_toArr (o : Option Value) : (o.map toArr).map toArr = o.map toArr := by
  cases o with
  | none => rfl
  | some v => simp [toArr_toArr]

theorem foldl_castStep_get (L : List (List String)) :
    ∀ (v : Value) (p : List String), (∀ q ∈ L, q = p ∨ divergesB q p = true) →
      getAtPath p (List.foldl castStep v L) =
        if p ∈ L then (getAtPath p v).map toArr else getAtPath p v := by
  induction L with
  | nil =>
    intro v p _
    simp
  | cons q L' ih =>
    intro v p hL
    have hq := hL q (List.mem_cons_self q L')
    have hL' : ∀ r ∈ L', r = p ∨ divergesB r p = true :=
      fun r hr => hL r (List.mem_cons_of_mem q hr)
    rcases hq with rfl | hdiv
    · have hmem : q ∈ q :: L' := List.mem_cons_self q L'
      rw [List.foldl_cons, ih (castStep v q) q hL', if_pos hmem]
      by_cases hmem' : q ∈ L'
      · rw [if_pos hmem']
        show ((getAtPath q (castArrayAt q v)).map toArr) = (getAtPath q v).map toArr
        rw [castArrayAt_get_self, optionMap_toArr_toArr]
      · rw [if_neg hmem']
        exact castArrayAt_get_self q v
    · have hne : q ≠ p := by
        intro hqp
        subst hqp
        rw [divergesB_irrefl] at hdiv
        cases hdiv
      have hget : getAtPath p (castStep v q) = getAtPath p v :=
        getAtPath_castArrayAt_diverge q p hdiv v
      have hmemiff : (p ∈ q :: L') ↔ (p ∈ L') := by
        simp only [List.mem_cons, or_iff_right_iff_imp]
        intro hc
        exact absurd hc.symm hne
      rw [List.foldl_cons, ih (castStep v q) p hL']
      by_cases hm : p ∈ L'
      · rw [if_pos hm, if_pos (hmemiff.mpr hm), hget]
      · rw [if_neg hm, if_neg (fun hc => hm (hmemiff.mp hc)), hget]

theorem foldl_castStep_id (L : List (List String)) :
    ∀ v : Value, (∀ p ∈ L, castArrayAt p v = v) → List.foldl castStep v L = v := by
  induction L with
  | nil => intro v _; rfl
  | cons q L' ih =>
    intro v h
    have hq : castArrayAt q v = v := h q (List.mem_cons_self q L')
    rw [List.foldl_cons]
    show List.foldl castStep (castArrayAt q v) L' = v
    rw [hq]
    exact ih v (fun p hp => h p (List.mem_cons_of_mem q hp))

theorem castArrayAt_prefix_preserve (r : List String) :
    ∀ (d : String) (rest : List String) (v : Value),
      keysAt r (castArrayAt (r ++ d :: rest) v) = keysAt r v ∧
      hasPath r (castArrayAt (r ++ d :: rest) v) = hasPath r v := by
  induction r with
  | nil =>
    intro d rest v
    cases v with
    | obj kvs =>
      cases hl : lookupKey kvs d with
      | some w =>
        simp only [List.nil_append, castArrayAt, hl, keysAt, getAtPath, hasPath,
          Option.isSome_some]
        constructor
        · exact updateKey_keys kvs d _
        · trivial
      | none =>
        simp only [List.nil_append, castArrayAt, hl]
        constructor <;> trivial
    | null => constructor <;> trivial
    | bool b => constructor <;> trivial
    | num n => constructor <;> trivial
    | str s0 => constructor <;> trivial
    | arr xs => constructor <;> trivial
  | cons a r' ih =>
    intro d rest v
    cases v with
    | obj kvs =>
      cases hl : lookupKey kvs a with
      | some w =>
        simp only [List.cons_append, castArrayAt, hl, keysAt, getAtPath, hasPath,
          lookupKey_updateKey_same, Option.map_some]
        exact ih d rest w
      | none =>
        simp only [List.cons_append, castArrayAt, hl]
        constructor <;> trivial
    | null => constructor <;> trivial
    | bool b => constructor <;> trivial
    | num n => constructor <;> trivial
    | str s0 => constructor <;> trivial
    | arr xs => constructor <;> trivial

theorem castStep_paths_stable (q root : List String) (v : Value)
    (h : divergesB q root = true ∨ ∃ d rest, q = root ++ d :: rest) :
    keysAt root (castArrayAt q v) = keysAt root v ∧
    hasPath root (castArrayAt q v) = hasPath root v := by
  rcases h with hdiv | ⟨d, rest, rfl⟩
  · have hg := getAtPath_castArrayAt_diverge q root hdiv v
    constructor
    · simp only [keysAt, hg]
    · simp only [hasPath, hg]
  · exact castArrayAt_prefix_preserve root d rest v

theorem foldl_paths_stable (L : List (List String)) (root : List String) :
    ∀ v : Value,
      (∀ q ∈ L, divergesB q root = true ∨ ∃ d rest, q = root ++ d :: rest) →
      keysAt root (List.foldl castStep v L) = keysAt root v ∧
      hasPath root (List.foldl castStep v L) = hasPath root v := by
  induction L with
  | nil =>
    intro v _
    exact ⟨rfl, rfl⟩
  | cons q L' ih =>
    intro v h
    have hstep := castStep_paths_stable q root v (h q (List.mem_cons_self q L'))
    have hrest := ih (castStep v q) (fun r hr => h r (List.mem_cons_of_mem q hr))
    rw [List.foldl_cons]
    exact ⟨hrest.1.trans hstep.1, hrest.2.trans hstep.2⟩

theorem cachePathsOf_congr (a b : Value)
    (hk : keysAt cacheRoot a = keysAt cacheRoot b)
    (hh : hasPath cacheRoot a = hasPath cacheRoot b) :
    cachePathsOf a = cachePathsOf b := by
  simp only [cachePathsOf, hk, hh]

theorem corsPathsOf_congr (a b : Value)
    (hk : keysAt corsRoot a = keysAt corsRoot b)
    (hh : hasPath corsRoot a = hasPath corsRoot b) :
    corsPathsOf a = corsPathsOf b := by
  simp only [corsPathsOf, hk, hh]

theorem mem_cachePathsOf (s : Value) (p : List String) (hp : p ∈ cachePathsOf s) :
    ∃ k, p = cachePath k := by
  simp only [cachePathsOf] at hp
  split at hp
  · obtain ⟨k, _, rfl⟩ := List.mem_map.mp hp
    exact ⟨k, rfl⟩
  · cases hp

theorem mem_corsPathsOf (s : Value) (p : List String) (hp : p ∈ corsPathsOf s) :
    ∃ k, p = corsPath k "allowedHeaders" ∨ p = corsPath k "exposedHeaders" ∨
      p = corsPath k "methods" := by
  simp only [corsPathsOf] at hp
  split at hp
  · rw [List.mem_flatten] at hp
    obtain ⟨l, hl, hpl⟩ := hp
    obtain ⟨k, _, rfl⟩ := List.mem_map.mp hl
    simp only [List.mem_cons, List.not_mem_nil, or_false] at hpl
    exact ⟨k, hpl⟩
  · cases hp

theorem fixed_pairwise :
    ∀ p ∈ fixedCastPaths, ∀ q ∈ fixedCastPaths, q = p ∨ divergesB q p = true := by
  decide

theorem fixed_div_cachePath : ∀ q ∈ fixedCastPaths, ∀ k, divergesB q (cachePath k) = true := by
  intro q hq k
  fin_cases hq <;> rfl

theorem fixed_div_corsPath :
    ∀ q ∈ fixedCastPaths, ∀ k sub, divergesB q (corsPath k sub) = true := by
  intro q hq k sub
  fin_cases hq <;> rfl

theorem cachePath_div_fixed : ∀ q ∈ fixedCastPaths, ∀ k, divergesB (cachePath k) q = true := by
  intro q hq k
  fin_cases hq <;> rfl

theorem corsPath_div_fixed :
    ∀ q ∈ fixedCastPaths, ∀ k sub, divergesB (corsPath k sub) q = true := by
  intro q hq k sub
  fin_cases hq <;> rfl

theorem cachePath_div_cachePath (k k' : String) (h : ¬ k = k') :
    divergesB (cachePath k) (cachePath k') = true := by
  simp [cachePath, divergesB, h]

theorem cachePath_div_corsPath (k k' sub : String) :
    divergesB (cachePath k) (corsPath k' sub) = true := rfl

theorem corsPath_div_cachePath (k k' sub : String) :
    divergesB (corsPath k sub) (cachePath k') = true := rfl

theorem corsPath_div_corsPath_key (k k' s1 s2 : String) (h : ¬ k = k') :
    divergesB (corsPath k s1) (corsPath k' s2) = true := by
  simp [corsPath, divergesB, h]

theorem corsPath_div_corsPath_sub (k s1 s2 : String) (h : ¬ s1 = s2) :
    divergesB (corsPath k s1) (corsPath k s2) = true := by
  simp [corsPath, divergesB, h]

theorem fixed_div_cacheRoot : ∀ q ∈ fixedCastPaths, divergesB q cacheRoot = true := by
  decide

theorem fixed_div_corsRoot : ∀ q ∈ fixedCastPaths, divergesB q corsRoot = true := by
  decide

theorem cachePath_div_corsRoot (k : String) : divergesB (cachePath k) corsRoot = true := rfl

theorem corsPath_div_cacheRoot (k sub : String) :
    divergesB (corsPath k sub) cacheRoot = true := rfl

theorem cachePath_eq_prefix (k : String) :
    cachePath k = cacheRoot ++ k :: ["server", "preserveHeaders"] := rfl

theorem corsPath_eq_prefix (k sub : String) : corsPath k sub = corsRoot ++ k :: [sub] := rfl

theorem mem_targetPaths_cases (s : Value) (p : List String) (hp : p ∈ targetPaths s) :
    p ∈ fixedCastPaths ∨ (∃ k, p = cachePath k) ∨
      (∃ k, p = corsPath k "allowedHeaders" ∨ p = corsPath k "exposedHeaders" ∨
        p = corsPath k "methods") := by
  simp only [targetPaths, List.mem_append] at hp
  rcases hp with hp | hp | hp
  · exact Or.inl hp
  · exact Or.inr (Or.inl (mem_cachePathsOf s p hp))
  · exact Or.inr (Or.inr (mem_corsPathsOf s p hp))

theorem targetPaths_pairwise (s : Value) :
    ∀ p ∈ targetPaths s, ∀ q ∈ targetPaths s, q = p ∨ divergesB q p = true := by
  intro p hp q hq
  rcases mem_targetPaths_cases s p hp with hpf | ⟨k, rfl⟩ | ⟨k, hpc⟩ <;>
    rcases mem_targetPaths_cases s q hq with hqf | ⟨k', rfl⟩ | ⟨k', hqc⟩
  · exact fixed_pairwise p hpf q hqf
  · exact Or.inr (cachePath_div_fixed p hpf k')
  · rcases hqc with rfl | rfl | rfl <;> exact Or.inr (corsPath_div_fixed p hpf k' _)
  · exact Or.inr (fixed_div_cachePath q hqf k)
  · by_cases hk : k' = k
    · exact Or.inl (by rw [hk])
    · exact Or.inr (cachePath_div_cachePath k' k hk)
  · rcases hqc with rfl | rfl | rfl <;> exact Or.inr (corsPath_div_cachePath k' k _)
  · rcases hpc with rfl | rfl | rfl <;> exact Or.inr (fixed_div_corsPath q hqf k _)
  · rcases hpc with rfl | rfl | rfl <;> exact Or.inr (cachePath_div_corsPath k' k _)
  · by_cases hk : k' = k
    · subst hk
      rcases hpc with rfl | rfl | rfl <;> rcases hqc with rfl | rfl | rfl <;>
        first
          | exact Or.inl rfl
          | exact Or.inr (corsPath_div_corsPath_sub k' _ _ (by decide))
    · rcases hpc with rfl | rfl | rfl <;> rcases hqc with rfl | rfl | rfl <;>
        exact Or.inr (corsPath_div_corsPath_key k' k _ _ hk)

theorem castArraysFn_eq_foldl (s : Value) :
    castArraysFn s = List.foldl castStep s (targetPaths s) := by
  have hc : cachePathsOf (List.foldl castStep s fixedCastPaths) = cachePathsOf s := by
    have h := foldl_paths_stable fixedCastPaths cacheRoot s
      (fun q hq => Or.inl (fixed_div_cacheRoot q hq))
    exact cachePathsOf_congr _ _ h.1 h.2
  have hr1 : corsPathsOf (List.foldl castStep s fixedCastPaths) = corsPathsOf s := by
    have h := foldl_paths_stable fixedCastPaths corsRoot s
      (fun q hq => Or.inl (fixed_div_corsRoot q hq))
    exact corsPathsOf_congr _ _ h.1 h.2
  have hr2 : corsPathsOf (List.foldl castStep (List.foldl castStep s fixedCastPaths)
      (cachePathsOf s)) = corsPathsOf (List.foldl castStep s fixedCastPaths) := by
    have h := foldl_paths_stable (cachePathsOf s) corsRoot
      (List.foldl castStep s fixedCastPaths)
      (fun q hq => by
        obtain ⟨k, rfl⟩ := mem_cachePathsOf s q hq
        exact Or.inl (cachePath_div_corsRoot k))
    exact corsPathsOf_congr _ _ h.1 h.2
  simp only [castArraysFn, targetPaths]
  rw [List.foldl_append, List.foldl_append, hc, hr2, hr1]

theorem castArraysFn_get (s : Value) (p : List String) (hp : p ∈ targetPaths s) :
    getAtPath p (castArraysFn s) = (getAtPath p s).map toArr := by
  rw [castArraysFn_eq_foldl,
    foldl_castStep_get (targetPaths s) s p (fun q hq => targetPaths_pairwise s p hp q hq),
    if_pos hp]

theorem castArraysFn_idem (s : Value) : castArraysFn (castArraysFn s) = castArraysFn s := by
  have hcache : cachePathsOf (castArraysFn s) = cachePathsOf s := by
    rw [castArraysFn_eq_foldl]
    have h := foldl_paths_stable (targetPaths s) cacheRoot s (fun q hq => by
      rcases mem_targetPaths_cases s q hq with hf | ⟨k, rfl⟩ | ⟨k, hc⟩
      · exact Or.inl (fixed_div_cacheRoot q hf)
      · exact Or.inr ⟨k, ["server", "preserveHeaders"], cachePath_eq_prefix k⟩
      · rcases hc with rfl | rfl | rfl <;> exact Or.inl (corsPath_div_cacheRoot k _))
    exact cachePathsOf_congr _ _ h.1 h.2
  have hcors : corsPathsOf (castArraysFn s) = corsPathsOf s := by
    rw [castArraysFn_eq_foldl]
    have h := foldl_paths_stable (targetPaths s) corsRoot s (fun q hq => by
      rcases mem_targetPaths_cases s q hq with hf | ⟨k, rfl⟩ | ⟨k, hc⟩
      · exact Or.inl (fixed_div_corsRoot q hf)
      · exact Or.inl (cachePath_div_corsRoot k)
      · rcases hc with rfl | rfl | rfl <;>
          exact Or.inr ⟨k, _, corsPath_eq_prefix k _⟩)
    exact corsPathsOf_congr _ _ h.1 h.2
  have htp : targetPaths (castArraysFn s) = targetPaths s := by
    simp only [targetPaths, hcache, hcors]
  rw [castArraysFn_eq_foldl (castArraysFn s), htp]
  apply foldl_castStep_id
  intro p hp
  apply castArrayAt_id_of_norm
  have hget := castArraysFn_get s p hp
  cases h : getAtPath p s with
  | none =>
    left
    rw [hget, h]
    rfl
  | some v =>
    right
    obtain ⟨xs, hxs⟩ := toArr_isArr v
    refine ⟨xs, ?_⟩
    rw [hget, h]
    simp [hxs]

/-- C8: for every target path of the Array Normalizer — the fixed dotted
paths plus the per-dynamically-named-key `cache` and `cors` paths — a
present non-sequence value `v` is replaced by the one-element sequence
`[v]`, a present sequence is left unchanged, an absent path stays
absent, and the whole normalization is idempotent. -/
theorem C8_array_normalizer :
    (∀ s p, p ∈ targetPaths s →
      (getAtPath p s = none → getAtPath p (castArraysFn s) = none) ∧
      (∀ xs, getAtPath p s = some (Value.arr xs) →
        getAtPath p (castArraysFn s) = some (Value.arr xs)) ∧
      (∀ v, getAtPath p s = some v → (∀ xs, v ≠ Value.arr xs) →
        getAtPath p (castArraysFn s) = some (Value.arr [v]))) ∧
    (∀ s, castArraysFn (castArraysFn s) = castArraysFn s) := by
  constructor
  · intro s p hp
    have hget := castArraysFn_get s p hp
    refine ⟨?_, ?_, ?_⟩
    · intro h
      rw [hget, h]
      rfl
    · intro xs h
      rw [hget, h]
      rfl
    · intro v h hne
      rw [hget, h]
      cases v with
      | arr xs => exact absurd rfl (hne xs)
      | null => rfl
      | bool b => rfl
      | num n => rfl
      | str s0 => rfl
      | obj kvs => rfl
  · exact castArraysFn_idem

/-- Witness for C8 on Scenario C: a scalar `gateway.admin.filter`
becomes a one-element sequence, and normalizing the result again
changes nothing. -/
theorem C8_array_normalizer_witness :
    getAtPath ["gateway", "admin", "filter"]
      (castArraysFn (Value.obj [("gateway", Value.obj [("admin",
        Value.obj [("filter", Value.str "a")])])])) =
      some (Value.arr [Value.str "a"]) ∧
    castArraysFn (castArraysFn (Value.obj [("gateway", Value.obj [("admin",
      Value.obj [("filter", Value.str "a")])])])) =
      castArraysFn (Value.obj [("gateway", Value.obj [("admin",
        Value.obj [("filter", Value.str "a")])])]) :=
  ⟨(C8_array_normalizer.1 (Value.obj [("gateway", Value.obj [("admin",
      Value.obj [("filter", Value.str "a")])])]) ["gateway", "admin", "filter"]
      (by decide)).2.2 (Value.str "a") (by decide) (fun xs h => Value.noConfusion h),
    C8_array_normalizer.2 (Value.obj [("gateway", Value.obj [("admin",
      Value.obj [("filter", Value.str "a")])])])⟩
